import Mathlib

/-!
# azfunctions: the invocation bridge

A shallow embedding of `server.go`, `context.go` and `logging.go`: the handler
decorator `decorateHTTP`, the error renderer, the envelope emitter, the
per-invocation logger with its capturing hook, and the context accessors.

The Go standard library pieces the bridge leans on (the response recorder of
`net/http/httptest`, `http.Error`, `http.NewRequestWithContext`, the value chain of
`context`, the string coercion of `encoding/json`) are embedded from their documented
behaviour. Library functions whose result is only passed along (`http.StatusText`,
`http.DetectContentType`, `url.Parse`, the logrus formatters, `errors.Stack`,
`errors.LogFields`) are fields of `World`.
-/

namespace Azfunctions

set_option autoImplicit false

/-! ## Bytes and text -/

/-- One octet. -/
abbrev Byte := Fin 256

/-- Go `[]byte`, and the contents of a Go `string` that carries a body. -/
abbrev Bytes := List Byte

/-- UTF-8 encoding of one code point, as Go does for `[]byte(s)`. -/
def utf8EncodeChar (c : Char) : Bytes :=
  let v := c.toNat
  if v < 0x80 then [Fin.ofNat v]
  else if v < 0x800 then [Fin.ofNat (0xC0 + v / 64), Fin.ofNat (0x80 + v % 64)]
  else if v < 0x10000 then
    [Fin.ofNat (0xE0 + v / 4096), Fin.ofNat (0x80 + v / 64 % 64), Fin.ofNat (0x80 + v % 64)]
  else
    [Fin.ofNat (0xF0 + v / 262144), Fin.ofNat (0x80 + v / 4096 % 64),
      Fin.ofNat (0x80 + v / 64 % 64), Fin.ofNat (0x80 + v % 64)]

/-- A Go `string` that holds text. -/
abbrev Text := String

/-- The bytes of a text: `[]byte(s)`. -/
def goBytes (s : String) : Bytes := s.toList.flatMap utf8EncodeChar

/-! ## `unicode/utf8` and the string coercion of `encoding/json` -/

/-- The entry of the `first` table of `unicode/utf8` for a lead byte at or above
`0x80`: the sequence length and the accepted range of the second byte, `none` for
the bytes that cannot start a sequence (`0x80..0xC1`, `0xF5..0xFF`). -/
def leadInfo (p0 : Byte) : Option (Nat × Byte × Byte) :=
  if p0 < 0xC2 then none
  else if p0 < 0xE0 then some (2, 0x80, 0xBF)
  else if p0 = 0xE0 then some (3, 0xA0, 0xBF)
  else if p0 = 0xED then some (3, 0x80, 0x9F)
  else if p0 < 0xF0 then some (3, 0x80, 0xBF)
  else if p0 = 0xF0 then some (4, 0x90, 0xBF)
  else if p0 < 0xF4 then some (4, 0x80, 0xBF)
  else if p0 = 0xF4 then some (4, 0x80, 0x8F)
  else none

/-- Continuation byte test: `locb <= b && b <= hicb`. -/
def isCont (b : Byte) : Bool := 0x80 ≤ b && b ≤ 0xBF

/-- The width reported by `utf8.DecodeRune` for a well-formed sequence at the head
of `p`, and `0` where it reports `(RuneError, 1)` or `(RuneError, 0)`. -/
def runeWidth : Bytes → Nat
  | [] => 0
  | p0 :: rest =>
    if p0 < 0x80 then 1
    else
      match leadInfo p0, rest with
      | none, _ => 0
      | some _, [] => 0
      | some (sz, lo, hi), b1 :: rest1 =>
        if b1 < lo || hi < b1 then 0
        else if sz ≤ 2 then 2
        else
          match rest1 with
          | [] => 0
          | b2 :: rest2 =>
            if !isCont b2 then 0
            else if sz ≤ 3 then 3
            else
              match rest2 with
              | [] => 0
              | b3 :: _ => if !isCont b3 then 0 else 4

/-- The encoding of U+FFFD, which `encoding/json` writes (escaped) in place of
each byte that `utf8.DecodeRuneInString` reports as `(RuneError, 1)`. -/
def replacementBytes : Bytes := [0xEF, 0xBF, 0xBD]

/-- The loop of `appendString` in `encoding/json`, read back by a JSON decoder: the
well-formed sequences are kept, every other byte becomes U+FFFD. The first argument
bounds the number of steps; `p.length` is enough since each step consumes a byte. -/
def coerceLoop : Nat → Bytes → Bytes
  | 0, _ => []
  | _ + 1, [] => []
  | fuel + 1, b :: rest =>
    match runeWidth (b :: rest) with
    | 0 => replacementBytes ++ coerceLoop fuel rest
    | n + 1 => (b :: rest.take n) ++ coerceLoop fuel (rest.drop n)

/-- What the receiver of the JSON document reads for a Go string with bytes `p`. -/
def jsonString (p : Bytes) : Bytes := coerceLoop p.length p

/-- The loop of `utf8.Valid`: no byte decodes as `(RuneError, 1)`. -/
def validLoop : Nat → Bytes → Bool
  | _, [] => true
  | 0, _ :: _ => false
  | fuel + 1, b :: rest =>
    match runeWidth (b :: rest) with
    | 0 => false
    | n + 1 => validLoop fuel (rest.drop n)

/-- The test `utf8.Valid(p)`. -/
def utf8Valid (p : Bytes) : Bool := validLoop p.length p

/-! ## `http.Header` -/

/-- The multimap `map[string][]string`, as an association list with at most one
pair per key when built through `set`. -/
abbrev Header := List (String × List String)

/-- Token characters of RFC 7230 (`httpguts.IsTokenRune`, `validHeaderFieldByte`). -/
def isTokenChar (c : Char) : Bool :=
  c.isAlphanum || "!#$%&*+-.^_|~".toList.contains c || c == Char.ofNat 39 || c == Char.ofNat 96

/-- The rewriting loop of `canonicalMIMEHeaderKey`: upper case at the start and
after a dash, lower case elsewhere. -/
def canonicalLoop : Bool → List Char → List Char
  | _, [] => []
  | upper, c :: cs =>
    let c1 := if upper && c.isLower then c.toUpper
              else if !upper && c.isUpper then c.toLower else c
    c1 :: canonicalLoop (c1 == '-') cs

/-- The function `textproto.CanonicalMIMEHeaderKey`: keys holding a byte that is
not a token character are returned unchanged. -/
def CanonicalMIMEHeaderKey (s : String) : String :=
  if s.toList.all isTokenChar then String.mk (canonicalLoop true s.toList) else s

namespace Header

/-- Map read `h[k]`. -/
def lookup (h : Header) (k : String) : Option (List String) :=
  (h.find? (fun p => p.1 == k)).map Prod.snd

/-- Map write `h[k] = vs`. -/
def set : Header → String → List String → Header
  | [], k, vs => [(k, vs)]
  | (k1, v1) :: rest, k, vs => if k1 == k then (k, vs) :: rest else (k1, v1) :: set rest k vs

/-- The method `Header.Set`. -/
def Set (h : Header) (key value : String) : Header :=
  h.set (CanonicalMIMEHeaderKey key) [value]

/-- The method `Header.Get`: first value under the canonical key, or `""`. -/
def Get (h : Header) (key : String) : String :=
  match h.lookup (CanonicalMIMEHeaderKey key) with
  | some (v :: _) => v
  | _ => ""

end Header


/-! ## Errors -/

/-- Modelled from the spec: the type `httpError` is declared outside the files at
hand; per the spec it is "a typed failure value carrying an HTTP status code and a
human-readable reason", and `decorateHTTP` reads its fields `StatusCode` and
`Message`. -/
structure httpError where
  StatusCode : Int
  Message : String
  deriving DecidableEq, Repr

/-- A Go `error` value: a chain of wrappers ending in a plain error or in an
`httpError`. -/
inductive GoError where
  | plain (msg : String)
  | http (e : httpError)
  | wrap (msg : String) (inner : GoError)
  deriving DecidableEq, Repr

/-- The call `errors.As(err, &herr)` with `herr` of type `httpError`: the first
`httpError` met while unwrapping. -/
def As : GoError → Option httpError
  | .plain _ => none
  | .http e => some e
  | .wrap _ inner => As inner

/-- The two errors a context reports once it is done. -/
inductive CtxErr where
  | Canceled
  | DeadlineExceeded
  deriving DecidableEq, Repr

/-! ## logrus: levels, entries, the capturing hook -/

/-- The type `log.Level`, from `PanicLevel` (0) to `TraceLevel` (6). -/
inductive Level where
  | PanicLevel | FatalLevel | ErrorLevel | WarnLevel | InfoLevel | DebugLevel | TraceLevel
  deriving DecidableEq, Repr

/-- Numeric value of a level. -/
def Level.rank : Level → Nat
  | .PanicLevel => 0
  | .FatalLevel => 1
  | .ErrorLevel => 2
  | .WarnLevel => 3
  | .InfoLevel => 4
  | .DebugLevel => 5
  | .TraceLevel => 6

/-- A field value: a string, or a value `encoding/json` cannot marshal (a channel, a
NaN float), which makes `JSONFormatter.Format` fail. -/
inductive FieldValue where
  | str (s : String)
  | unsupported (desc : String)
  deriving DecidableEq, Repr

/-- The map `log.Fields`. -/
abbrev Fields := List (String × FieldValue)

/-- Map write on `log.Fields`. -/
def Fields.put : Fields → String → FieldValue → Fields
  | [], k, v => [(k, v)]
  | (k1, v1) :: rest, k, v => if k1 == k then (k, v) :: rest else (k1, v1) :: Fields.put rest k v

/-- The two formatters `createLogger` chooses from. -/
inductive Formatter where
  | TextFormatter
  | JSONFormatter
  deriving DecidableEq, Repr

/-- The fields of `log.Logger` that `createLogger` sets. Its single hook is the
interceptor, whose state is threaded separately (`LogState`); `Out` is not read by
the bridge. -/
structure Logger where
  Level : Level
  Formatter : Formatter
  deriving DecidableEq, Repr

/-- The type `log.Entry`: the logger it belongs to, its fields and, once it is
being logged, its level and message. -/
structure Entry where
  Logger : Logger
  Data : Fields
  Level : Level
  Message : String
  deriving DecidableEq, Repr

/-! ## The inbound envelope -/

/-- The struct `invokeHTTPRequest`. -/
structure invokeHTTPRequest where
  URL : String
  Method : String
  Headers : Header
  Body : String
  deriving DecidableEq, Repr

/-- A `json.RawMessage` of the envelope: its text, and what `json.Unmarshal` into an
`invokeHTTPRequest` returns for it. -/
structure RawMessage where
  raw : String
  unmarshal : Except GoError invokeHTTPRequest

/-- The struct `invokeInput`; `Metadata` is never read. -/
structure invokeInput where
  Data : List (String × RawMessage)

/-- Map read `in.Data[k]`; `none` is the nil raw message of an absent key. -/
def invokeInput.get (i : invokeInput) (k : String) : Option RawMessage :=
  (i.Data.find? (fun p => p.1 == k)).map Prod.snd

/-- The inbound connection request `r` sent by the host: what decoding its body as
an `invokeInput` returns, and the values its context carries (all under keys of
other packages). -/
structure Request where
  decoded : Except GoError invokeInput
  ctxValues : List (String × String)

/-! ## `context` -/

/-- Context keys: the unexported type `key` of this package, and keys of any other
type. -/
inductive Key where
  | pkg (n : Int)
  | foreign (name : String)
  deriving DecidableEq, Repr

/-- The constant `requestKey`. -/
def requestKey : Key := .pkg 1

/-- The constant `loggerKey`. -/
def loggerKey : Key := .pkg 2

/-- A value stored in a context. -/
inductive CtxValue where
  | request (r : Request)
  | logger (e : Entry)
  | foreign (v : String)

/-- A context chain: the context of the inbound request, then the layers
`decorateHTTP` adds. -/
inductive Context where
  | inbound (vals : List (String × String))
  | WithValue (parent : Context) (key : Key) (val : CtxValue)
  | WithTimeout (parent : Context) (minutes : Nat)

/-- The method `ctx.Value(key)`: the innermost value stored under `key`. -/
def Context.Value : Context → Key → Option CtxValue
  | .inbound vals, .foreign name => ((vals.find? (fun p => p.1 == name)).map Prod.snd).map .foreign
  | .inbound _, .pkg _ => none
  | .WithValue parent k v, key => if k = key then some v else parent.Value key
  | .WithTimeout parent _, key => parent.Value key

/-- The context of the inbound request: `r.Context()`. -/
def Request.Context (r : Request) : Context := .inbound r.ctxValues

/-- The function `RequestFromContext`; `none` is the panic of the failed type
assertion. -/
def RequestFromContext (ctx : Context) : Option Request :=
  match ctx.Value requestKey with
  | some (.request r) => some r
  | _ => none

/-- The function `LoggerFromContext`; `none` is the panic of the failed type
assertion. -/
def LoggerFromContext (ctx : Context) : Option Entry :=
  match ctx.Value loggerKey with
  | some (.logger e) => some e
  | _ => none

/-- The synthetic request `hr` handed to the handler. -/
structure SynthRequest where
  Method : String
  URL : String
  Header : Header
  Body : String
  ctx : Context

/-- The method `hr.Context()`. -/
def SynthRequest.Context (hr : SynthRequest) : Context := hr.ctx

/-- The function `LoggerFromRequest`. -/
def LoggerFromRequest (r : SynthRequest) : Option Entry :=
  LoggerFromContext r.Context

/-! ## The world outside -/

/-- Library functions and repository constants the bridge calls and whose value it
only passes along. -/
structure World where
  /-- The result of `env.IsLocal()`. -/
  isLocal : Bool
  /-- The function `http.StatusText`. -/
  StatusText : Int → String
  /-- The function `http.DetectContentType`. -/
  DetectContentType : Bytes → String
  /-- The error `url.Parse` returns, if any. -/
  urlParseErr : String → Option GoError
  /-- The error of `template.New("error").Parse(errorTemplate)`, if any; the
  constant `errorTemplate` is declared outside the files at hand. -/
  templateParseErr : Option String
  /-- The call `tmpl.Execute(w, status)` on the parsed `errorTemplate`: the bytes it
  writes and the error it returns, if any. -/
  templateExecute : Int → Bytes × Option String
  /-- The function `errors.Stack`. -/
  Stack : GoError → String
  /-- The function `errors.LogFields`, whose values are strings. -/
  LogFields : GoError → List (String × String)
  /-- The text `TextFormatter` produces for an entry. -/
  textFormat : Entry → String
  /-- The text `JSONFormatter` produces for an entry whose fields marshal. -/
  jsonFormat : Entry → String

/-! ## `httptest.ResponseRecorder` -/

/-- The recorder: the exported fields `Code`, `HeaderMap`, `Body` and the
unexported `wroteHeader`, `snapHeader`. -/
structure ResponseRecorder where
  Code : Int
  HeaderMap : Header
  Body : Bytes
  wroteHeader : Bool
  snapHeader : Option Header
  deriving DecidableEq, Repr

/-- The constructor `httptest.NewRecorder`. -/
def NewRecorder : ResponseRecorder :=
  { Code := 200, HeaderMap := [], Body := [], wroteHeader := false, snapHeader := none }

/-- The guard `checkWriteHeaderCode`: `false` is its panic. -/
def checkWriteHeaderCode (code : Int) : Bool := !(code < 100 || code > 999)

namespace ResponseRecorder

/-- The method `WriteHeader`: a no-op once the header is written, else the code is
checked, stored, and the header map is snapshotted. `none` is the panic. -/
def WriteHeader (rw : ResponseRecorder) (code : Int) : Option ResponseRecorder :=
  if rw.wroteHeader then some rw
  else if checkWriteHeaderCode code then
    some { rw with Code := code, wroteHeader := true, snapHeader := some rw.HeaderMap }
  else none

/-- The sniffing step of the unexported `writeHeader`: a `Content-Type` is detected
from the bytes unless one, or a `Transfer-Encoding`, is set. -/
def sniffContentType (W : World) (m : Header) (b : Bytes) : Header :=
  let hasType := (m.lookup "Content-Type").isSome
  let hasTE := m.Get "Transfer-Encoding" != ""
  if !hasType && !hasTE then m.Set "Content-Type" (W.DetectContentType b) else m

/-- The unexported `writeHeader(b, "")`: when the header is not written yet, sniff
the content type, then write 200. -/
def writeHeader (W : World) (rw : ResponseRecorder) (b : Bytes) : Option ResponseRecorder :=
  if rw.wroteHeader then some rw
  else { rw with HeaderMap := sniffContentType W rw.HeaderMap b }.WriteHeader 200

/-- The method `Write`. -/
def Write (W : World) (rw : ResponseRecorder) (buf : Bytes) : Option ResponseRecorder :=
  (rw.writeHeader W buf).map fun rw1 => { rw1 with Body := rw1.Body ++ buf }

end ResponseRecorder

/-- The fields of the `http.Response` that `emitResponse` reads. -/
structure Response where
  StatusCode : Int
  Header : Header
  Body : Bytes
  deriving DecidableEq, Repr

/-- The method `Result`: the stored code (200 for 0), the header snapshot (taken
now if none was taken), the body written so far. -/
def ResponseRecorder.Result (rw : ResponseRecorder) : Response :=
  { StatusCode := if rw.Code = 0 then 200 else rw.Code
    Header := rw.snapHeader.getD rw.HeaderMap
    Body := rw.Body }

/-- The function `http.Error`. -/
def Error (W : World) (w : ResponseRecorder) (error : String) (code : Int) :
    Option ResponseRecorder :=
  let h := (w.HeaderMap.Set "Content-Type" "text/plain; charset=utf-8").Set
    "X-Content-Type-Options" "nosniff"
  ({ w with HeaderMap := h }.WriteHeader code).bind fun w1 => w1.Write W (goBytes (error ++ "\n"))

/-! ## logging.go -/

/-- The method `Entry.String`: the formatter of the entry's logger applied to it.
`TextFormatter` formats any value; `JSONFormatter` fails when a field does not
marshal. -/
def Entry.String (W : World) (entry : Entry) : Except Text Text :=
  match entry.Logger.Formatter with
  | .TextFormatter => .ok (W.textFormat entry)
  | .JSONFormatter =>
    if entry.Data.any (fun p => match p.2 with
        | .unsupported _ => true
        | .str _ => false) then
      .error "failed to marshal fields to JSON"
    else .ok (W.jsonFormat entry)

/-- The function `errors.Trace`: the error, wrapped with the place of the call. -/
def Trace (err : GoError) : GoError := .wrap "trace" err

/-- The struct `logInterceptor`. -/
structure logInterceptor where
  logs : List String
  deriving DecidableEq, Repr

/-- The method `Fire`: the error it returns, if any, and the interceptor after the
call. -/
def logInterceptor.Fire (W : World) (logger : logInterceptor) (entry : Entry) :
    Option GoError × logInterceptor :=
  match entry.String W with
  | .error err => (some (Trace (.plain err)), logger)
  | .ok s => (none, { logs := logger.logs ++ [s] })

/-- The function `createLogger`: the entry `logger.WithField("function", funcName)`
of a new logger, and the interceptor hooked on that logger. -/
def createLogger (W : World) (level : Level) (funcName : String) : Entry × logInterceptor :=
  let logger : Logger :=
    { Level := level
      Formatter := if W.isLocal then .TextFormatter else .JSONFormatter }
  ({ Logger := logger, Data := [("function", .str funcName)], Level := .PanicLevel, Message := "" },
   { logs := [] })

/-- The state behind one scoped logger: its interceptor, and the entries fired at
its hooks so far, in order. -/
structure LogState where
  interceptor : logInterceptor
  fired : List Entry
  deriving DecidableEq, Repr

/-- The method `Logger.IsLevelEnabled`: `logger.level() >= level`. -/
def Logger.IsLevelEnabled (l : Logger) (level : Azfunctions.Level) : Bool := level.rank ≤ l.Level.rank

/-- The method `Entry.WithField`. -/
def Entry.WithField (e : Entry) (k : Text) (v : FieldValue) : Entry :=
  { e with Data := e.Data.put k v }

/-- The method `Entry.WithFields`. -/
def Entry.WithFields (e : Entry) (fs : Fields) : Entry :=
  { e with Data := fs.foldl (fun d p => d.put p.1 p.2) e.Data }

/-- String-valued fields, as `errors.LogFields` returns them. -/
def strFields (fs : List (String × String)) : Fields := fs.map fun p => (p.1, .str p.2)

/-- The method `Entry.Log`: when the level is enabled, the entry is given its level
and message and fired at the hooks; an error of the hook is printed to the standard
error stream and dropped. -/
def Entry.Log (W : World) (entry : Entry) (level : Azfunctions.Level) (msg : Text)
    (s : LogState) :
    LogState :=
  if entry.Logger.IsLevelEnabled level then
    let e := { entry with Level := level, Message := msg }
    { interceptor := (s.interceptor.Fire W e).2, fired := s.fired ++ [e] }
  else s

/-! ## Handlers -/

/-- What a handler does with the response writer and the scoped logger, one step at
a time. -/
inductive Op where
  /-- Any change of the map returned by `w.Header()`. -/
  | header (f : Header → Header)
  /-- The call `w.WriteHeader(code)`. -/
  | WriteHeader (code : Int)
  /-- The call `w.Write(buf)`. -/
  | Write (buf : Bytes)
  /-- The call `LoggerFromRequest(r).WithFields(fields).Log(level, msg)`; at
  `PanicLevel` and `FatalLevel` it stands for `Panic` and `Fatal`. -/
  | log (level : Level) (fields : Fields) (msg : String)

/-- How a handler ends. -/
inductive HandlerExit where
  | returned (err : Option GoError)
  | panicked

/-- One run of a handler: its steps, then its end. A handler that returns has
taken all its steps (see `runsToEnd`). -/
structure HandlerRun where
  ops : List Op
  exit : HandlerExit

/-- The type `HTTPHandler`. -/
abbrev HTTPHandler := SynthRequest → HandlerRun

/-- Runs the steps of a handler on the recorder and the log state. `none`: a step
panicked (a `WriteHeader` code out of range, a logger missing from the context, a
`Panic`) or ended the process (`Fatal`). -/
def runOps (W : World) (hr : SynthRequest) :
    List Op → ResponseRecorder × LogState → Option (ResponseRecorder × LogState)
  | [], st => some st
  | .header f :: rest, (hw, L) => runOps W hr rest ({ hw with HeaderMap := f hw.HeaderMap }, L)
  | .WriteHeader code :: rest, (hw, L) =>
    match hw.WriteHeader code with
    | none => none
    | some hw1 => runOps W hr rest (hw1, L)
  | .Write buf :: rest, (hw, L) =>
    match hw.Write W buf with
    | none => none
    | some hw1 => runOps W hr rest (hw1, L)
  | .log level fields msg :: rest, (hw, L) =>
    match LoggerFromRequest hr with
    | none => none
    | some lg =>
      let L1 := (lg.WithFields fields).Log W level msg L
      if level = .PanicLevel ∨ level = .FatalLevel then none else runOps W hr rest (hw, L1)

/-! ## server.go -/

/-- The field of `Server` the bridge reads; the router and the crash-reporting
client are wiring. -/
structure Server where
  logLevel : Level
  deriving DecidableEq, Repr

/-- The options `WithDebug` and `WithTrace`. -/
inductive ServerOption where
  | WithDebug
  | WithTrace
  deriving DecidableEq, Repr

/-- Applying an option to the server. -/
def ServerOption.apply : ServerOption → Server → Server
  | .WithDebug, server => { server with logLevel := .DebugLevel }
  | .WithTrace, server => { server with logLevel := .TraceLevel }

/-- The function `NewServer`. -/
def NewServer (opts : List ServerOption) : Server :=
  opts.foldl (fun server opt => opt.apply server) { logLevel := .InfoLevel }

/-- The struct `invokeHTTPResponse`. -/
structure invokeHTTPResponse where
  StatusCode : Int
  Headers : Header
  Body : Bytes
  deriving DecidableEq, Repr

/-- The map `ReturnValue` of the outbound envelope, with its single key `res`. -/
structure ReturnValue where
  res : invokeHTTPResponse
  deriving DecidableEq, Repr

/-- The struct `invokeOutput`; `Outputs` is never set. -/
structure invokeOutput where
  Logs : List String
  ReturnValue : ReturnValue
  deriving DecidableEq, Repr

/-- The document `json.NewEncoder(w).Encode(out)` writes, given as the value its
reader decodes: numbers, texts and the shape are kept, and the body, a Go string
of arbitrary bytes, is coerced to valid UTF-8. -/
def Encode (out : invokeOutput) : invokeOutput :=
  { out with ReturnValue := { res := { out.ReturnValue.res with
      Body := jsonString out.ReturnValue.res.Body } } }

/-- The function `emitResponse`: the value `out` it hands to the encoder. -/
def emitResponse (interceptor : logInterceptor) (handlerw : ResponseRecorder) : invokeOutput :=
  let result := handlerw.Result
  { Logs := interceptor.logs
    ReturnValue := { res :=
      { StatusCode := result.StatusCode, Headers := result.Header, Body := result.Body } } }

/-- The unexported `validMethod` of `net/http`: a non-empty token. -/
def validMethod (method : String) : Bool := method.length > 0 && method.toList.all isTokenChar

/-- The function `http.NewRequestWithContext`: an empty method means `GET`, the
method must be a token and the URL must parse. -/
def NewRequestWithContext (W : World) (ctx : Context) (method url body : String) :
    Except GoError SynthRequest :=
  let method := if method = "" then "GET" else method
  if !validMethod method then .error (.plain ("net/http: invalid method " ++ method))
  else
    match W.urlParseErr url with
    | some err => .error err
    | none => .ok { Method := method, URL := url, Header := [], Body := body, ctx := ctx }

/-- The function `renderError`. `none`: the logger is missing from the request's
context. -/
def renderError (W : World) (w : ResponseRecorder) (r : SynthRequest) (status : Int)
    (L : LogState) : Option (ResponseRecorder × LogState) :=
  let w := { w with HeaderMap := w.HeaderMap.Set "Content-Type" "text/html" }
  match w.WriteHeader status with
  | none => none
  | some w =>
    match W.templateParseErr with
    | some err =>
      match Error W w "Internal server error" 500, LoggerFromRequest r with
      | some w1, some lg =>
        some (w1, (lg.WithField "error" (.str err)).Log W .ErrorLevel "Cannot parse template" L)
      | _, _ => none
    | none =>
      match w.Write W (W.templateExecute status).1 with
      | none => none
      | some w1 =>
        match (W.templateExecute status).2 with
        | some err =>
          match Error W w1 "Internal server error" 500, LoggerFromRequest r with
          | some w2, some lg =>
            some (w2, (lg.WithField "error" (.str err)).Log W .ErrorLevel "Cannot execute template" L)
          | _, _ => none
        | none => some (w1, L)

/-- What one invocation leaves behind: the envelope handed to the encoder, the
entries fired at the hooks of the scoped logger, the requests the handler was called
with, and the errors reported to the crash-reporting client. -/
structure Outcome where
  out : invokeOutput
  fired : List Entry
  handlerCalls : List SynthRequest
  reports : List GoError

/-- The envelope as the host reads it off the wire: `Logs`, the status and the
headers of `out`, and the body of `out` as a JSON string. -/
def Outcome.sent (O : Outcome) : invokeOutput := Encode O.out

/-- What `ctx.Err()` returns at the two places `decorateHTTP` reads it: when the
handler has returned, and after the error was logged and reported. A context that
is done stays done with the same error. -/
structure Timeline where
  atReturn : Option CtxErr
  later : Option CtxErr
  deriving DecidableEq, Repr

/-- The first read of `ctx.Err()`. -/
def Timeline.first (T : Timeline) : Option CtxErr := T.atReturn

/-- The second read of `ctx.Err()`. -/
def Timeline.second (T : Timeline) : Option CtxErr :=
  match T.atReturn with
  | some e => some e
  | none => T.later

/-- The context `decorateHTTP` builds: the inbound context, the request under
`requestKey`, the logger under `loggerKey`, a timeout of ten minutes. -/
def invocationCtx (r : Request) (logger : Entry) : Context :=
  .WithTimeout (.WithValue (.WithValue r.Context requestKey (.request r)) loggerKey
    (.logger logger)) 10

/-- The end of every path of `decorateHTTP`: `emitResponse(w, interceptor, hw)`. -/
def respond (L : LogState) (hw : ResponseRecorder) (calls : List SynthRequest)
    (reports : List GoError) : Outcome :=
  { out := emitResponse L.interceptor hw, fired := L.fired, handlerCalls := calls,
    reports := reports }

/-- The generic part of the error block of `decorateHTTP`, reached when the error
is not a structured 400, 401 or 404: the canceled check, the log entry and the
report, the deadline check, then the 500 answer of the environment mode. -/
def genericFailure (W : World) (logger : Entry) (hw : ResponseRecorder) (hr : SynthRequest)
    (L : LogState) (T : Timeline) (err : GoError) : Option Outcome :=
  if T.first = some .Canceled then
    (renderError W hw hr 408 L).map fun p => respond p.2 p.1 [hr] []
  else
    let L1 := (logger.WithFields (strFields (W.LogFields err))).Log W .ErrorLevel
      "Handler failed" L
    if T.second = some .DeadlineExceeded then
      (renderError W hw hr 408 L1).map fun p => respond p.2 p.1 [hr] [err]
    else if W.isLocal then
      ((hw.WriteHeader 500).bind fun hw1 => hw1.Write W (goBytes (W.Stack err ++ "\n"))).map
        fun hw2 => respond L1 hw2 [hr] [err]
    else
      (renderError W hw hr 500 L1).map fun p => respond p.2 p.1 [hr] [err]

/-- The block of `decorateHTTP` run when the handler returned a non-nil `err`. -/
def handlerFailed (W : World) (logger : Entry) (hw : ResponseRecorder) (hr : SynthRequest)
    (L : LogState) (T : Timeline) (err : GoError) : Option Outcome :=
  match As err with
  | some herr =>
    if herr.StatusCode = 404 ∨ herr.StatusCode = 401 ∨ herr.StatusCode = 400 then
      let L1 := (((logger.WithFields (strFields (W.LogFields err))).WithField "status"
        (.str (W.StatusText herr.StatusCode))).WithField "reason" (.str herr.Message)).Log W
        .ErrorLevel "Handler failed" L
      (renderError W hw hr herr.StatusCode L1).map fun p => respond p.2 p.1 [hr] []
    else genericFailure W logger hw hr L T err
  | none => genericFailure W logger hw hr L T err

/-- The end of `decorateHTTP`, from the method check on: the 405 answer, or the
call of the handler and the answer to its outcome. -/
def invoke (W : World) (logger : Entry) (methods : List String) (handler : HTTPHandler)
    (hw : ResponseRecorder) (hr : SynthRequest) (L : LogState) (T : Timeline) : Option Outcome :=
  if !methods.contains hr.Method then
    (Error W hw (W.StatusText 405) 405).map fun hw1 => respond L hw1 [] []
  else
    match runOps W hr (handler hr).ops (hw, L), (handler hr).exit with
    | some (hw1, L1), .returned (some err) => handlerFailed W logger hw1 hr L1 T err
    | some (hw1, L1), .returned none => some (respond L1 hw1 [hr] [])
    | _, _ => none

/-- The function `decorateHTTP`, applied to the inbound request `r`. `none`: the
invocation panicked, or the process ended, before a response was emitted. -/
def decorateHTTP (W : World) (server : Server) (funcName : String) (methods : List String)
    (handler : HTTPHandler) (r : Request) (T : Timeline) : Option Outcome :=
  let hw := NewRecorder
  let logger := (createLogger W server.logLevel funcName).1
  let L : LogState := { interceptor := (createLogger W server.logLevel funcName).2, fired := [] }
  match r.decoded with
  | .error err =>
    (Error W hw (W.StatusText 500) 500).map fun hw1 =>
      respond ((logger.WithFields (strFields (W.LogFields err))).Log W .ErrorLevel
        "Cannot decode JSON request" L) hw1 [] []
  | .ok input =>
    match input.get "req" with
    | none =>
      (Error W hw (W.StatusText 500) 500).map fun hw1 =>
        respond (logger.Log W .ErrorLevel "Missing req parameter" L) hw1 [] []
    | some req =>
      let L := (logger.WithField "req" (.str req.raw)).Log W .TraceLevel
        "Internal request received" L
      match req.unmarshal with
      | .error err =>
        (Error W hw (W.StatusText 500) 500).map fun hw1 =>
          respond ((logger.WithFields (strFields (W.LogFields err))).Log W .ErrorLevel
            "Cannot decode HTTP request" L) hw1 [] []
      | .ok inreq =>
        match NewRequestWithContext W (invocationCtx r logger) inreq.Method inreq.URL
            inreq.Body with
        | .error err =>
          (Error W hw (W.StatusText 500) 500).map fun hw1 =>
            respond ((logger.WithFields (strFields (W.LogFields err))).Log W .ErrorLevel
              "Cannot create internal HTTP request" L) hw1 [] []
        | .ok hr0 => invoke W logger methods handler hw { hr0 with Header := inreq.Headers } L T

/-- The registration `HTTPGet`: the decorated handler accepts `GET` and `HEAD`. -/
def HTTPGet (W : World) (server : Server) (funcName : String) (handler : HTTPHandler) :
    Request → Timeline → Option Outcome :=
  decorateHTTP W server funcName ["GET", "HEAD"] handler

/-- The registration `HTTPPost`: the decorated handler accepts `POST`. -/
def HTTPPost (W : World) (server : Server) (funcName : String) (handler : HTTPHandler) :
    Request → Timeline → Option Outcome :=
  decorateHTTP W server funcName ["POST"] handler

/-! ## Vocabulary of the statements -/

/-- The scoped logger of an invocation. -/
def scopedLogger (W : World) (server : Server) (funcName : String) : Entry :=
  (createLogger W server.logLevel funcName).1

/-- The synthetic request `decorateHTTP` builds for `r`, when the envelope and the
description decode and `http.NewRequestWithContext` succeeds. -/
def synthesized (W : World) (server : Server) (funcName : String) (r : Request) :
    Option SynthRequest :=
  match r.decoded with
  | .error _ => none
  | .ok input =>
    match input.get "req" with
    | none => none
    | some req =>
      match req.unmarshal with
      | .error _ => none
      | .ok inreq =>
        match NewRequestWithContext W (invocationCtx r (scopedLogger W server funcName))
            inreq.Method inreq.URL inreq.Body with
        | .error _ => none
        | .ok hr0 => some { hr0 with Header := inreq.Headers }

/-- The log state when the handler is about to be called: the new interceptor,
after the trace entry that records the raw description. -/
def logAtCall (W : World) (server : Server) (funcName : String) (r : Request) : LogState :=
  let L : LogState := { interceptor := (createLogger W server.logLevel funcName).2, fired := [] }
  match r.decoded with
  | .error _ => L
  | .ok input =>
    match input.get "req" with
    | none => L
    | some req =>
      ((scopedLogger W server funcName).WithField "req" (.str req.raw)).Log W .TraceLevel
        "Internal request received" L

/-- A step that writes the response header: `WriteHeader` or `Write`. -/
def Op.writes : Op → Bool
  | .WriteHeader _ => true
  | .Write _ => true
  | .header _ => false
  | .log _ _ _ => false

/-- A step that touches the recorder at all. -/
def Op.touches : Op → Bool
  | .log _ _ _ => false
  | _ => true

/-- No step panics or ends the process: every `WriteHeader` that takes effect has a
three-digit code, and no entry is logged with `Panic` or `Fatal`. The flag tells
whether the header is already written. -/
def runsToEnd : Bool → List Op → Bool
  | _, [] => true
  | wrote, .header _ :: rest => runsToEnd wrote rest
  | wrote, .WriteHeader code :: rest => (wrote || checkWriteHeaderCode code) && runsToEnd true rest
  | _, .Write _ :: rest => runsToEnd true rest
  | wrote, .log level _ _ :: rest =>
    level != .PanicLevel && level != .FatalLevel && runsToEnd wrote rest

/-- The bytes a handler wrote: the arguments of its `Write` calls, in order. -/
def writtenBytes : List Op → Bytes
  | [] => []
  | .Write buf :: rest => buf ++ writtenBytes rest
  | _ :: rest => writtenBytes rest

/-- The status a handler recorded: the code of a `WriteHeader` that precedes every
`Write`, and 200 when there is none. -/
def recordedStatus : List Op → Int
  | [] => 200
  | .WriteHeader code :: _ => code
  | .Write _ :: _ => 200
  | _ :: rest => recordedStatus rest

/-- The header map a handler recorded: the map at its first `WriteHeader` or `Write`
(with the sniffed `Content-Type` a first `Write` adds), or at its return when it
wrote nothing. -/
def recordedHeaders (W : World) : Header → List Op → Header
  | h, [] => h
  | h, .header f :: rest => recordedHeaders W (f h) rest
  | h, .WriteHeader _ :: _ => h
  | h, .Write buf :: _ => ResponseRecorder.sniffContentType W h buf
  | h, .log _ _ _ :: rest => recordedHeaders W h rest

/-- The error is classified as a structured 400, 401 or 404. -/
def isClientError (err : GoError) : Bool :=
  match As err with
  | some herr => herr.StatusCode = 404 || herr.StatusCode = 401 || herr.StatusCode = 400
  | none => false

/-- Rendering the error page for `status` fails, at parsing or at execution. -/
def renderFails (W : World) (status : Int) : Bool :=
  W.templateParseErr.isSome || (W.templateExecute status).2.isSome

/-- The bytes `renderError` writes for `status`: the page, or what was written of it
followed by the plain-text line of `http.Error`. -/
def renderedBody (W : World) (status : Int) : Bytes :=
  match W.templateParseErr with
  | some _ => goBytes "Internal server error\n"
  | none =>
    match (W.templateExecute status).2 with
    | some _ => (W.templateExecute status).1 ++ goBytes "Internal server error\n"
    | none => (W.templateExecute status).1

/-- The texts of the entries that format, in the order of the entries. -/
def captured (W : World) (fired : List Entry) : List String :=
  fired.filterMap fun e => (e.String W).toOption

/-- The interceptor holds the texts of the fired entries that format. -/
def Consistent (W : World) (L : LogState) : Prop :=
  L.interceptor.logs = captured W L.fired

/-- Every field is a string. -/
def allStr (d : Fields) : Prop := ∀ p ∈ d, ∃ s, p.2 = FieldValue.str s

/-- Among the fired entries there is one at error level whose text is among the
captured log lines. -/
def hasErrorEntry (W : World) (fired : List Entry) (logs : List String) : Prop :=
  ∃ e ∈ fired, e.Level = .ErrorLevel ∧ ∃ text ∈ logs, e.String W = .ok text

/-! ## Sample inputs -/

/-- A deployed or local world with the simplest library answers. -/
def sampleWorld (isLocal : Bool) : World :=
  { isLocal := isLocal
    StatusText := fun code =>
      if code = 500 then "Internal Server Error"
      else if code = 405 then "Method Not Allowed"
      else if code = 404 then "Not Found" else ""
    DetectContentType := fun _ => "text/plain; charset=utf-8"
    urlParseErr := fun _ => none
    templateParseErr := none
    templateExecute := fun status =>
      (goBytes (if status = 404 then "<h1>404</h1>"
        else if status = 408 then "<h1>408</h1>"
        else if status = 500 then "<h1>500</h1>" else "<h1>error</h1>"), none)
    Stack := fun _ => "stack"
    LogFields := fun _ => [("error", "failed")]
    textFormat := fun e => e.Message
    jsonFormat := fun e => e.Message }

/-- An inbound request whose envelope holds a description with the given method,
for the URL `/api/items`. -/
def sampleRequest (method : String) : Request :=
  { decoded := .ok { Data := [("req",
      { raw := "req"
        unmarshal := .ok { URL := "/api/items", Method := method, Headers := [], Body := "" } })] }
    ctxValues := [] }

/-- A timeline on which the context stays live. -/
def liveTimeline : Timeline := { atReturn := none, later := none }

/-- A handler that takes the given steps and returns the given error. -/
def sampleHandler (ops : List Op) (err : Option GoError) : HTTPHandler :=
  fun _ => { ops := ops, exit := .returned err }

/-- An entry with a field that `encoding/json` cannot marshal, on a logger set up as
in deployed mode. -/
def sampleBadEntry : Entry :=
  { Logger := { Level := .InfoLevel, Formatter := .JSONFormatter }
    Data := [("function", .str "items"), ("ratio", .unsupported "NaN")]
    Level := .InfoLevel
    Message := "computed" }

/-! ## Lemmas and theorems -/

/-- The wire form keeps the log lines. -/
theorem sent_Logs (O : Outcome) : O.sent.Logs = O.out.Logs := rfl

/-- The wire form keeps the status. -/
theorem sent_StatusCode (O : Outcome) :
    O.sent.ReturnValue.res.StatusCode = O.out.ReturnValue.res.StatusCode := rfl

/-- The wire form keeps the headers. -/
theorem sent_Headers (O : Outcome) :
    O.sent.ReturnValue.res.Headers = O.out.ReturnValue.res.Headers := rfl

/-- The wire form of the body is its JSON string. -/
theorem sent_Body (O : Outcome) :
    O.sent.ReturnValue.res.Body = jsonString O.out.ReturnValue.res.Body := rfl

theorem NewServer_level (opts : List ServerOption) :
    (NewServer opts).logLevel = .InfoLevel ∨ (NewServer opts).logLevel = .DebugLevel ∨
      (NewServer opts).logLevel = .TraceLevel := by
  have key : ∀ (l : List ServerOption) (s : Server),
      (s.logLevel = .InfoLevel ∨ s.logLevel = .DebugLevel ∨ s.logLevel = .TraceLevel) →
      ((l.foldl (fun server opt => opt.apply server) s).logLevel = .InfoLevel ∨
        (l.foldl (fun server opt => opt.apply server) s).logLevel = .DebugLevel ∨
        (l.foldl (fun server opt => opt.apply server) s).logLevel = .TraceLevel) := by
    intro l
    induction l with
    | nil => intro s hs; simpa using hs
    | cons o rest ih =>
      intro s _
      simp only [List.foldl_cons]
      apply ih
      cases o <;> simp [ServerOption.apply]
  exact key opts _ (Or.inl rfl)

theorem error_enabled (W : World) (opts : List ServerOption) (funcName : String) :
    (scopedLogger W (NewServer opts) funcName).Logger.IsLevelEnabled .ErrorLevel = true := by
  rcases NewServer_level opts with h | h | h <;>
    simp [scopedLogger, createLogger, Logger.IsLevelEnabled, h, Level.rank]

theorem decorateHTTP_of_synthesized (W : World) (server : Server) (funcName : String)
    (methods : List String) (handler : HTTPHandler) (r : Request) (T : Timeline)
    (hr : SynthRequest) (hs : synthesized W server funcName r = some hr) :
    decorateHTTP W server funcName methods handler r T =
      invoke W (scopedLogger W server funcName) methods handler NewRecorder hr
        (logAtCall W server funcName r) T := by
  unfold synthesized at hs
  unfold decorateHTTP logAtCall
  cases h1 : r.decoded with
  | error e => simp [h1] at hs
  | ok input =>
    simp only [h1] at hs ⊢
    cases h2 : input.get "req" with
    | none => simp [h2] at hs
    | some req =>
      simp only [h2] at hs ⊢
      cases h3 : req.unmarshal with
      | error e => simp [h3] at hs
      | ok inreq =>
        simp only [h3] at hs ⊢
        cases h4 : NewRequestWithContext W (invocationCtx r (scopedLogger W server funcName))
            inreq.Method inreq.URL inreq.Body with
        | error e => simp [h4] at hs
        | ok hr0 =>
          simp only [h4, Option.some.injEq] at hs
          simp only [scopedLogger] at h4 ⊢
          simp only [h4]
          rw [hs]

theorem NewRequestWithContext_ok (W : World) (ctx : Context) (method url body : String)
    (hr0 : SynthRequest) (h : NewRequestWithContext W ctx method url body = .ok hr0) :
    hr0 = { Method := if method = "" then "GET" else method, URL := url, Header := [],
            Body := body, ctx := ctx } ∧
      validMethod (if method = "" then "GET" else method) = true ∧ W.urlParseErr url = none := by
  unfold NewRequestWithContext at h
  by_cases hv : validMethod (if method = "" then "GET" else method) = true
  · cases hu : W.urlParseErr url with
    | some e => simp [hv, hu] at h
    | none =>
      simp [hv, hu] at h
      exact ⟨h.symm, hv, rfl⟩
  · simp [hv] at h

theorem synthesized_ctx (W : World) (server : Server) (funcName : String) (r : Request)
    (hr : SynthRequest) (hs : synthesized W server funcName r = some hr) :
    hr.ctx = invocationCtx r (scopedLogger W server funcName) := by
  unfold synthesized at hs
  cases h1 : r.decoded with
  | error e => simp [h1] at hs
  | ok input =>
    simp only [h1] at hs
    cases h2 : input.get "req" with
    | none => simp [h2] at hs
    | some req =>
      simp only [h2] at hs
      cases h3 : req.unmarshal with
      | error e => simp [h3] at hs
      | ok inreq =>
        simp only [h3] at hs
        cases h4 : NewRequestWithContext W (invocationCtx r (scopedLogger W server funcName))
            inreq.Method inreq.URL inreq.Body with
        | error e => simp [h4] at hs
        | ok hr0 =>
          simp only [h4, Option.some.injEq] at hs
          rw [← hs, (NewRequestWithContext_ok _ _ _ _ _ _ h4).1]

theorem invocationCtx_logger (r : Request) (lg : Entry) :
    LoggerFromContext (invocationCtx r lg) = some lg := by
  simp [LoggerFromContext, invocationCtx, Context.Value]

theorem invocationCtx_request (r : Request) (lg : Entry) :
    RequestFromContext (invocationCtx r lg) = some r := by
  simp [RequestFromContext, invocationCtx, Context.Value, requestKey, loggerKey]

theorem synthesized_logger (W : World) (server : Server) (funcName : String) (r : Request)
    (hr : SynthRequest) (hs : synthesized W server funcName r = some hr) :
    LoggerFromRequest hr = some (scopedLogger W server funcName) := by
  simp [LoggerFromRequest, SynthRequest.Context, synthesized_ctx W server funcName r hr hs,
    invocationCtx_logger]

/-! ### The recorder -/

theorem WriteHeader_written (rw : ResponseRecorder) (code : Int) (h : rw.wroteHeader = true) :
    rw.WriteHeader code = some rw := by
  simp [ResponseRecorder.WriteHeader, h]

theorem WriteHeader_unwritten (rw : ResponseRecorder) (code : Int) (h : rw.wroteHeader = false)
    (hc : checkWriteHeaderCode code = true) :
    rw.WriteHeader code =
      some { rw with Code := code, wroteHeader := true, snapHeader := some rw.HeaderMap } := by
  simp [ResponseRecorder.WriteHeader, h, hc]

theorem Write_written (W : World) (rw : ResponseRecorder) (buf : Bytes)
    (h : rw.wroteHeader = true) :
    rw.Write W buf = some { rw with Body := rw.Body ++ buf } := by
  simp [ResponseRecorder.Write, ResponseRecorder.writeHeader, h]

theorem Write_unwritten (W : World) (rw : ResponseRecorder) (buf : Bytes)
    (h : rw.wroteHeader = false) :
    rw.Write W buf =
      some { Code := 200, HeaderMap := ResponseRecorder.sniffContentType W rw.HeaderMap buf,
             Body := rw.Body ++ buf, wroteHeader := true,
             snapHeader := some (ResponseRecorder.sniffContentType W rw.HeaderMap buf) } := by
  simp [ResponseRecorder.Write, ResponseRecorder.writeHeader, h, ResponseRecorder.WriteHeader,
    checkWriteHeaderCode]

theorem Error_spec (W : World) (w : ResponseRecorder) (msg : String) (code : Int)
    (hc : checkWriteHeaderCode code = true) :
    ∃ w1, Error W w msg code = some w1 ∧ w1.wroteHeader = true ∧
      w1.Body = w.Body ++ goBytes (msg ++ "\n") ∧
      (w.wroteHeader = true → w1.Code = w.Code ∧ w1.snapHeader = w.snapHeader) ∧
      (w.wroteHeader = false → w1.Code = code ∧ w1.snapHeader =
        some ((w.HeaderMap.Set "Content-Type" "text/plain; charset=utf-8").Set
          "X-Content-Type-Options" "nosniff")) := by
  cases hw : w.wroteHeader with
  | true =>
    simp [Error, WriteHeader_written, Write_written, hw]
  | false =>
    simp [Error, WriteHeader_unwritten, Write_written, hw, hc]

/-! ### The logger -/

theorem Fire_logs (W : World) (li : logInterceptor) (e : Entry) :
    (li.Fire W e).2.logs = li.logs ++ ((e.String W).toOption).toList := by
  unfold logInterceptor.Fire
  cases h : e.String W <;> simp [Except.toOption]

theorem captured_append (W : World) (xs : List Entry) (e : Entry) :
    captured W (xs ++ [e]) = captured W xs ++ ((e.String W).toOption).toList := by
  unfold captured
  rw [List.filterMap_append]
  cases h : (e.String W).toOption <;> simp [List.filterMap_cons, h]

theorem Log_consistent (W : World) (lg : Entry) (level : Level) (msg : String) (L : LogState)
    (h : Consistent W L) : Consistent W (lg.Log W level msg L) := by
  unfold Entry.Log
  split
  · unfold Consistent at h ⊢
    simp only [Fire_logs, captured_append, h]
  · exact h

theorem Log_fired_mono (W : World) (lg : Entry) (level : Level) (msg : String) (L : LogState)
    (e : Entry) (h : e ∈ L.fired) : e ∈ (lg.Log W level msg L).fired := by
  unfold Entry.Log
  split
  · simp [h]
  · exact h

theorem Log_logs_mono (W : World) (lg : Entry) (level : Level) (msg : String) (L : LogState)
    (t : String) (h : t ∈ L.interceptor.logs) : t ∈ (lg.Log W level msg L).interceptor.logs := by
  unfold Entry.Log
  split
  · simp [Fire_logs, h]
  · exact h

theorem allStr_put (d : Fields) (k v : String) (h : allStr d) : allStr (d.put k (.str v)) := by
  induction d with
  | nil =>
    intro p hp
    simp [Fields.put] at hp
    exact ⟨v, by rw [hp]⟩
  | cons a rest ih =>
    obtain ⟨k1, v1⟩ := a
    intro p hp
    simp only [Fields.put] at hp
    split at hp
    · rcases List.mem_cons.1 hp with hp | hp
      · exact ⟨v, by rw [hp]⟩
      · exact h p (List.mem_cons_of_mem _ hp)
    · rcases List.mem_cons.1 hp with hp | hp
      · exact h p (by rw [hp]; exact List.mem_cons_self _ _)
      · exact ih (fun q hq => h q (List.mem_cons_of_mem _ hq)) p hp

theorem allStr_WithField (e : Entry) (k v : String) (h : allStr e.Data) :
    allStr (e.WithField k (.str v)).Data := allStr_put _ _ _ h

theorem allStr_WithFields (e : Entry) (fs : List (String × String)) (h : allStr e.Data) :
    allStr (e.WithFields (strFields fs)).Data := by
  unfold Entry.WithFields strFields
  simp only
  generalize e.Data = d at h
  induction fs generalizing d with
  | nil => simpa using h
  | cons a rest ih =>
    simp only [List.map_cons, List.foldl_cons]
    exact ih _ (allStr_put _ _ _ h)

theorem allStr_scopedLogger (W : World) (server : Server) (funcName : String) :
    allStr (scopedLogger W server funcName).Data := by
  intro p hp
  simp [scopedLogger, createLogger] at hp
  exact ⟨funcName, by rw [hp]⟩

theorem String_of_allStr (W : World) (e : Entry) (h : allStr e.Data) :
    ∃ text, e.String W = .ok text := by
  unfold Entry.String
  cases e.Logger.Formatter with
  | TextFormatter => exact ⟨_, rfl⟩
  | JSONFormatter =>
    refine ⟨W.jsonFormat e, if_neg ?_⟩
    rw [Bool.not_eq_true, List.any_eq_false]
    intro p hp
    obtain ⟨s, hs⟩ := h p hp
    simp [hs]

/-- An enabled `Error` call on an entry with string fields fires one error-level
entry, whose text the interceptor appends. -/
theorem Log_error (W : World) (lg : Entry) (msg : String) (L : LogState)
    (hen : lg.Logger.IsLevelEnabled .ErrorLevel = true) (hd : allStr lg.Data) :
    ∃ e text, e.Level = .ErrorLevel ∧ e.Message = msg ∧ e.String W = .ok text ∧
      (lg.Log W .ErrorLevel msg L).fired = L.fired ++ [e] ∧
      (lg.Log W .ErrorLevel msg L).interceptor.logs = L.interceptor.logs ++ [text] := by
  obtain ⟨text, ht⟩ := String_of_allStr W { lg with Level := .ErrorLevel, Message := msg } hd
  refine ⟨{ lg with Level := .ErrorLevel, Message := msg }, text, rfl, rfl, ht, ?_, ?_⟩
  · simp [Entry.Log, hen]
  · simp [Entry.Log, hen, Fire_logs, ht, Except.toOption]

/-! ### The error renderer -/

theorem renderError_spec (W : World) (w : ResponseRecorder) (hr : SynthRequest) (status : Int)
    (L : LogState) (lg : Entry) (hlg : LoggerFromRequest hr = some lg)
    (hc : checkWriteHeaderCode status = true) :
    ∃ w1 L1, renderError W w hr status L = some (w1, L1) ∧
      w1.Body = w.Body ++ renderedBody W status ∧
      (w.wroteHeader = false → w1.Code = status ∧
        w1.snapHeader = some (w.HeaderMap.Set "Content-Type" "text/html")) ∧
      (w.wroteHeader = true → w1.Code = w.Code ∧ w1.snapHeader = w.snapHeader) ∧
      (renderFails W status = false → L1 = L) ∧
      (renderFails W status = true → ∃ msg txt,
        L1 = (lg.WithField "error" (.str msg)).Log W .ErrorLevel txt L) := by
  have hWH : ∃ w0, ({ w with HeaderMap := w.HeaderMap.Set "Content-Type" "text/html" } :
        ResponseRecorder).WriteHeader status = some w0 ∧ w0.wroteHeader = true ∧
      w0.Body = w.Body ∧
      (w.wroteHeader = false → w0.Code = status ∧
        w0.snapHeader = some (w.HeaderMap.Set "Content-Type" "text/html")) ∧
      (w.wroteHeader = true → w0.Code = w.Code ∧ w0.snapHeader = w.snapHeader) := by
    rcases Bool.eq_false_or_eq_true w.wroteHeader with hw | hw
    · exact ⟨_, WriteHeader_written _ _ hw, hw, rfl, by simp [hw], by simp⟩
    · exact ⟨_, WriteHeader_unwritten _ _ hw hc, rfl, rfl, by simp, by simp [hw]⟩
  obtain ⟨w0, e0, hw0, hb0, hu0, hv0⟩ := hWH
  unfold renderError
  simp only [e0]
  cases hp : W.templateParseErr with
  | some perr =>
    obtain ⟨w1, e1, _, hb1, hk1, _⟩ := Error_spec W w0 "Internal server error" 500 (by decide)
    have hk := hk1 hw0
    refine ⟨w1, (lg.WithField "error" (.str perr)).Log W .ErrorLevel "Cannot parse template" L,
      by simp only [e1, hlg], ?_, ?_, ?_, ?_, ?_⟩
    · rw [hb1, hb0]; simp [renderedBody, hp]
    · intro h; rw [hk.1, hk.2]; exact hu0 h
    · intro h; rw [hk.1, hk.2]; exact hv0 h
    · intro h; simp [renderFails, hp] at h
    · intro _; exact ⟨_, _, rfl⟩
  | none =>
    simp only [Write_written W w0 _ hw0]
    cases hx : (W.templateExecute status).2 with
    | some xerr =>
      obtain ⟨w1, e1, _, hb1, hk1, _⟩ := Error_spec W
        { w0 with Body := w0.Body ++ (W.templateExecute status).1 } "Internal server error" 500
        (by decide)
      have hk := hk1 hw0
      refine ⟨w1, (lg.WithField "error" (.str xerr)).Log W .ErrorLevel "Cannot execute template" L,
        by simp only [e1, hlg], ?_, ?_, ?_, ?_, ?_⟩
      · rw [hb1]; simp [renderedBody, hp, hx, hb0]
      · intro h; rw [hk.1, hk.2]; exact hu0 h
      · intro h; rw [hk.1, hk.2]; exact hv0 h
      · intro h; simp [renderFails, hp, hx] at h
      · intro _; exact ⟨_, _, rfl⟩
    | none =>
      refine ⟨_, _, rfl, ?_, ?_, ?_, ?_, ?_⟩
      · simp [renderedBody, hp, hx, hb0]
      · intro h; exact hu0 h
      · intro h; exact hv0 h
      · intro _; rfl
      · intro h; simp [renderFails, hp, hx] at h

/-! ### The steps of a handler -/

theorem runOps_complete (W : World) (hr : SynthRequest) (lg : Entry)
    (hlg : LoggerFromRequest hr = some lg) (ops : List Op) :
    ∀ (hw : ResponseRecorder) (L : LogState), runsToEnd hw.wroteHeader ops = true →
      ∃ hw1 L1, runOps W hr ops (hw, L) = some (hw1, L1) := by
  induction ops with
  | nil => intro hw L _; exact ⟨hw, L, rfl⟩
  | cons op rest ih =>
    intro hw L h
    cases op with
    | header f =>
      simp only [runOps]
      exact ih _ _ (by simpa [runsToEnd] using h)
    | WriteHeader code =>
      simp only [runsToEnd, Bool.and_eq_true, Bool.or_eq_true] at h
      simp only [runOps]
      rcases Bool.eq_false_or_eq_true hw.wroteHeader with hb | hb
      · rw [WriteHeader_written _ _ hb]
        exact ih _ _ (by rw [hb]; exact h.2)
      · have hc : checkWriteHeaderCode code = true := by
          rcases h.1 with h1 | h1
          · rw [hb] at h1; cases h1
          · exact h1
        rw [WriteHeader_unwritten _ _ hb hc]
        exact ih _ _ h.2
    | Write buf =>
      simp only [runsToEnd] at h
      simp only [runOps]
      rcases Bool.eq_false_or_eq_true hw.wroteHeader with hb | hb
      · rw [Write_written _ _ _ hb]
        exact ih _ _ (by simpa [hb] using h)
      · rw [Write_unwritten _ _ _ hb]
        exact ih _ _ h
    | log level fields msg =>
      simp only [runsToEnd, Bool.and_eq_true, bne_iff_ne, ne_eq] at h
      simp only [runOps, hlg]
      rw [if_neg (by rintro (h1 | h1); exact h.1.1 h1; exact h.1.2 h1)]
      exact ih _ _ h.2

theorem runOps_consistent (W : World) (hr : SynthRequest) (ops : List Op) :
    ∀ (hw hw1 : ResponseRecorder) (L L1 : LogState),
      runOps W hr ops (hw, L) = some (hw1, L1) → Consistent W L → Consistent W L1 := by
  induction ops with
  | nil =>
    intro hw hw1 L L1 h hc
    simp only [runOps, Option.some.injEq, Prod.mk.injEq] at h
    rw [← h.2]; exact hc
  | cons op rest ih =>
    intro hw hw1 L L1 h hc
    cases op with
    | header f =>
      simp only [runOps] at h
      exact ih _ _ _ _ h hc
    | WriteHeader code =>
      simp only [runOps] at h
      cases hx : hw.WriteHeader code with
      | none => simp [hx] at h
      | some hw2 => simp only [hx] at h; exact ih _ _ _ _ h hc
    | Write buf =>
      simp only [runOps] at h
      cases hx : hw.Write W buf with
      | none => simp [hx] at h
      | some hw2 => simp only [hx] at h; exact ih _ _ _ _ h hc
    | log level fields msg =>
      simp only [runOps] at h
      cases hx : LoggerFromRequest hr with
      | none => simp [hx] at h
      | some lg =>
        simp only [hx] at h
        split at h
        · cases h
        · exact ih _ _ _ _ h (Log_consistent _ _ _ _ _ hc)

theorem runOps_unwritten (W : World) (hr : SynthRequest) (ops : List Op) :
    ∀ (hw hw1 : ResponseRecorder) (L L1 : LogState),
      (∀ op ∈ ops, op.writes = false) → runOps W hr ops (hw, L) = some (hw1, L1) →
      hw1.wroteHeader = hw.wroteHeader ∧ hw1.Body = hw.Body ∧ hw1.Code = hw.Code ∧
        hw1.snapHeader = hw.snapHeader := by
  induction ops with
  | nil =>
    intro hw hw1 L L1 _ h
    simp only [runOps, Option.some.injEq, Prod.mk.injEq] at h
    rw [← h.1]; exact ⟨rfl, rfl, rfl, rfl⟩
  | cons op rest ih =>
    intro hw hw1 L L1 hn h
    have hrest : ∀ op ∈ rest, op.writes = false := fun o ho => hn o (List.mem_cons_of_mem _ ho)
    have hop := hn op (List.mem_cons_self _ _)
    cases op with
    | header f =>
      simp only [runOps] at h
      exact ih { hw with HeaderMap := f hw.HeaderMap } _ _ _ hrest h
    | WriteHeader code => simp [Op.writes] at hop
    | Write buf => simp [Op.writes] at hop
    | log level fields msg =>
      simp only [runOps] at h
      cases hx : LoggerFromRequest hr with
      | none => simp [hx] at h
      | some lg =>
        simp only [hx] at h
        split at h
        · cases h
        · exact ih _ _ _ _ hrest h

theorem runOps_untouched (W : World) (hr : SynthRequest) (ops : List Op) :
    ∀ (hw hw1 : ResponseRecorder) (L L1 : LogState),
      (∀ op ∈ ops, op.touches = false) → runOps W hr ops (hw, L) = some (hw1, L1) →
      hw1 = hw := by
  induction ops with
  | nil =>
    intro hw hw1 L L1 _ h
    simp only [runOps, Option.some.injEq, Prod.mk.injEq] at h
    exact h.1.symm
  | cons op rest ih =>
    intro hw hw1 L L1 hn h
    have hrest : ∀ op ∈ rest, op.touches = false := fun o ho => hn o (List.mem_cons_of_mem _ ho)
    have hop := hn op (List.mem_cons_self _ _)
    cases op with
    | header f => simp [Op.touches] at hop
    | WriteHeader code => simp [Op.touches] at hop
    | Write buf => simp [Op.touches] at hop
    | log level fields msg =>
      simp only [runOps] at h
      cases hx : LoggerFromRequest hr with
      | none => simp [hx] at h
      | some lg =>
        simp only [hx] at h
        split at h
        · cases h
        · exact ih _ _ _ _ hrest h

theorem runOps_written (W : World) (hr : SynthRequest) (ops : List Op) :
    ∀ (hw hw1 : ResponseRecorder) (L L1 : LogState),
      hw.wroteHeader = true → runOps W hr ops (hw, L) = some (hw1, L1) →
      hw1.Code = hw.Code ∧ hw1.snapHeader = hw.snapHeader ∧
        hw1.Body = hw.Body ++ writtenBytes ops := by
  induction ops with
  | nil =>
    intro hw hw1 L L1 _ h
    simp only [runOps, Option.some.injEq, Prod.mk.injEq] at h
    rw [← h.1]; simp [writtenBytes]
  | cons op rest ih =>
    intro hw hw1 L L1 hb h
    cases op with
    | header f =>
      simp only [runOps] at h
      simpa [writtenBytes] using ih { hw with HeaderMap := f hw.HeaderMap } _ _ _ hb h
    | WriteHeader code =>
      simp only [runOps, WriteHeader_written _ _ hb] at h
      simpa [writtenBytes] using ih _ _ _ _ hb h
    | Write buf =>
      simp only [runOps, Write_written _ _ _ hb] at h
      have := ih _ _ _ _ (show ({ hw with Body := hw.Body ++ buf } : ResponseRecorder).wroteHeader
        = true from hb) h
      simpa [writtenBytes, List.append_assoc] using this
    | log level fields msg =>
      simp only [runOps] at h
      cases hx : LoggerFromRequest hr with
      | none => simp [hx] at h
      | some lg =>
        simp only [hx] at h
        split at h
        · cases h
        · simpa [writtenBytes] using ih _ _ _ _ hb h

theorem runOps_result (W : World) (hr : SynthRequest) (ops : List Op) :
    ∀ (hw hw1 : ResponseRecorder) (L L1 : LogState),
      hw.wroteHeader = false → hw.snapHeader = none → hw.Code = 200 →
      runOps W hr ops (hw, L) = some (hw1, L1) →
      hw1.Result.StatusCode = recordedStatus ops ∧
        hw1.Result.Header = recordedHeaders W hw.HeaderMap ops ∧
        hw1.Result.Body = hw.Body ++ writtenBytes ops := by
  induction ops with
  | nil =>
    intro hw hw1 L L1 _ hs hc h
    simp only [runOps, Option.some.injEq, Prod.mk.injEq] at h
    rw [← h.1]
    simp [ResponseRecorder.Result, recordedStatus, recordedHeaders, writtenBytes, hs, hc]
  | cons op rest ih =>
    intro hw hw1 L L1 hb hs hc h
    cases op with
    | header f =>
      simp only [runOps] at h
      simpa [recordedStatus, recordedHeaders, writtenBytes] using
        ih { hw with HeaderMap := f hw.HeaderMap } _ _ _ hb hs hc h
    | WriteHeader code =>
      simp only [runOps] at h
      cases hx : hw.WriteHeader code with
      | none => simp [hx] at h
      | some hw2 =>
        simp only [hx] at h
        have hcode : checkWriteHeaderCode code = true := by
          by_contra hn
          simp [ResponseRecorder.WriteHeader, hb, hn] at hx
        rw [WriteHeader_unwritten _ _ hb hcode] at hx
        cases hx
        obtain ⟨h1, h2, h3⟩ := runOps_written W hr rest _ _ _ _ rfl h
        simp only [checkWriteHeaderCode, Bool.not_eq_true', Bool.or_eq_false_iff,
          decide_eq_false_iff_not, not_lt] at hcode
        have hne : code ≠ 0 := by omega
        simp [ResponseRecorder.Result, recordedStatus, recordedHeaders, writtenBytes, h1, h2, h3,
          hne]
    | Write buf =>
      simp only [runOps, Write_unwritten _ _ _ hb] at h
      obtain ⟨h1, h2, h3⟩ := runOps_written W hr rest _ _ _ _ rfl h
      simp [ResponseRecorder.Result, recordedStatus, recordedHeaders, writtenBytes, h1, h2, h3]
    | log level fields msg =>
      simp only [runOps] at h
      cases hx : LoggerFromRequest hr with
      | none => simp [hx] at h
      | some lg =>
        simp only [hx] at h
        split at h
        · cases h
        · simpa [recordedStatus, recordedHeaders, writtenBytes] using ih _ _ _ _ hb hs hc h

theorem contains_of_mem (methods : List String) (m : String) (h : m ∈ methods) :
    methods.contains m = true := by
  simpa using h

/-- Past the method check, with a handler whose steps run to their end, the
invocation is the answer to the handler's exit. -/
theorem decorateHTTP_returned (W : World) (server : Server) (funcName : String)
    (methods : List String) (handler : HTTPHandler) (r : Request) (T : Timeline)
    (hr : SynthRequest) (hs : synthesized W server funcName r = some hr)
    (hm : hr.Method ∈ methods) (hruns : runsToEnd false (handler hr).ops = true) :
    ∃ hw1 L1,
      runOps W hr (handler hr).ops (NewRecorder, logAtCall W server funcName r) = some (hw1, L1) ∧
      (∀ err, (handler hr).exit = .returned (some err) →
        decorateHTTP W server funcName methods handler r T =
          handlerFailed W (scopedLogger W server funcName) hw1 hr L1 T err) ∧
      ((handler hr).exit = .returned none →
        decorateHTTP W server funcName methods handler r T = some (respond L1 hw1 [hr] [])) := by
  obtain ⟨hw1, L1, h1⟩ := runOps_complete W hr _ (synthesized_logger W server funcName r hr hs)
    (handler hr).ops NewRecorder (logAtCall W server funcName r) hruns
  refine ⟨hw1, L1, h1, ?_, ?_⟩
  · intro err he
    rw [decorateHTTP_of_synthesized W server funcName methods handler r T hr hs]
    simp [invoke, hm, h1, he]
  · intro he
    rw [decorateHTTP_of_synthesized W server funcName methods handler r T hr hs]
    simp [invoke, hm, h1, he]

theorem handlerFailed_client (W : World) (logger : Entry) (hw : ResponseRecorder)
    (hr : SynthRequest) (L : LogState) (T : Timeline) (err : GoError) (herr : httpError)
    (has : As err = some herr)
    (hcode : herr.StatusCode = 400 ∨ herr.StatusCode = 401 ∨ herr.StatusCode = 404) :
    handlerFailed W logger hw hr L T err =
      (renderError W hw hr herr.StatusCode
        ((((logger.WithFields (strFields (W.LogFields err))).WithField "status"
          (.str (W.StatusText herr.StatusCode))).WithField "reason" (.str herr.Message)).Log W
          .ErrorLevel "Handler failed" L)).map fun p => respond p.2 p.1 [hr] [] := by
  have : herr.StatusCode = 404 ∨ herr.StatusCode = 401 ∨ herr.StatusCode = 400 := by tauto
  simp only [handlerFailed, has, if_pos this]

theorem handlerFailed_generic (W : World) (logger : Entry) (hw : ResponseRecorder)
    (hr : SynthRequest) (L : LogState) (T : Timeline) (err : GoError)
    (h : isClientError err = false) :
    handlerFailed W logger hw hr L T err = genericFailure W logger hw hr L T err := by
  unfold handlerFailed
  unfold isClientError at h
  cases has : As err with
  | none => rfl
  | some herr =>
    simp only [has, Bool.or_eq_false_iff, decide_eq_false_iff_not] at h
    simp only [if_neg (show ¬(herr.StatusCode = 404 ∨ herr.StatusCode = 401 ∨
      herr.StatusCode = 400) from by tauto)]

theorem checkCode_of_client (code : Int) (h : code = 400 ∨ code = 401 ∨ code = 404) :
    checkWriteHeaderCode code = true := by
  rcases h with h | h | h <;> subst h <;> decide

theorem local_write (W : World) (hw : ResponseRecorder) (buf : Bytes) :
    ∃ hw2, ((hw.WriteHeader 500).bind fun hw1 => hw1.Write W buf) = some hw2 ∧
      (hw.wroteHeader = false → hw2.Code = 500 ∧ hw2.snapHeader = some hw.HeaderMap ∧
        hw2.Body = hw.Body ++ buf) := by
  rcases Bool.eq_false_or_eq_true hw.wroteHeader with hb | hb
  · rw [WriteHeader_written _ _ hb]
    simp [Write_written _ _ _ hb, hb]
  · rw [WriteHeader_unwritten _ _ hb (by decide)]
    simp [Write_written]

theorem Error_fresh (W : World) (msg : String) (code : Int)
    (hc : checkWriteHeaderCode code = true) :
    ∃ w1, Error W NewRecorder msg code = some w1 ∧
      ∀ li, (emitResponse li w1).ReturnValue.res.StatusCode = code ∧
        (emitResponse li w1).Logs = li.logs := by
  obtain ⟨w1, e1, _, _, _, h⟩ := Error_spec W NewRecorder msg code hc
  refine ⟨w1, e1, fun li => ⟨?_, rfl⟩⟩
  have hcode := (h rfl).1
  simp only [checkWriteHeaderCode, Bool.not_eq_true', Bool.or_eq_false_iff,
    decide_eq_false_iff_not, not_lt] at hc
  have hne : code ≠ 0 := by omega
  simp [emitResponse, ResponseRecorder.Result, hcode, hne]

/-- C1 (amended): when the envelope and the description decode, the synthesized
method (the decoded method, the empty method being read as `GET`) is a valid token,
the URL parses, and that synthesized method is not in the declared method set, then
`decorateHTTP` never calls the handler and the outbound status is 405. -/
theorem C1_method_not_allowed (W : World) (server : Server) (funcName : String)
    (methods : List String) (handler : HTTPHandler) (r : Request) (T : Timeline)
    (input : invokeInput) (req : RawMessage) (inreq : invokeHTTPRequest)
    (hdec : r.decoded = .ok input) (hreq : input.get "req" = some req)
    (hun : req.unmarshal = .ok inreq)
    (hvalid : validMethod (if inreq.Method = "" then "GET" else inreq.Method) = true)
    (hurl : W.urlParseErr inreq.URL = none)
    (hnot : (if inreq.Method = "" then "GET" else inreq.Method) ∉ methods) :
    ∃ O, decorateHTTP W server funcName methods handler r T = some O ∧
      O.handlerCalls = [] ∧ O.out.ReturnValue.res.StatusCode = 405 := by
  obtain ⟨w1, e1, h1⟩ := Error_fresh W (W.StatusText 405) 405 (by decide)
  have hsyn : synthesized W server funcName r = some
      { Method := if inreq.Method = "" then "GET" else inreq.Method, URL := inreq.URL,
        Header := inreq.Headers, Body := inreq.Body,
        ctx := invocationCtx r (scopedLogger W server funcName) } := by
    simp [synthesized, hdec, hreq, hun, NewRequestWithContext, hvalid, hurl]
  rw [decorateHTTP_of_synthesized W server funcName methods handler r T _ hsyn]
  refine ⟨respond (logAtCall W server funcName r) w1 [] [], ?_, rfl, (h1 _).1⟩
  simp [invoke, hnot, e1]

/-- C1 at the example of the spec: `DELETE` on an endpoint registered with
`HTTPGet`. -/
theorem C1_method_not_allowed_witness :
    ∃ O, HTTPGet (sampleWorld false) (NewServer []) "items" (sampleHandler [] none)
        (sampleRequest "DELETE") liveTimeline = some O ∧
      O.handlerCalls = [] ∧ O.out.ReturnValue.res.StatusCode = 405 :=
  C1_method_not_allowed (sampleWorld false) (NewServer []) "items" ["GET", "HEAD"]
    (sampleHandler [] none) (sampleRequest "DELETE") liveTimeline _ _ _ rfl rfl rfl
    (by decide) rfl (by decide)

/-- C1 as stated fails: a description with the empty method is not in the set
`GET`, `HEAD`, yet the handler registered with `HTTPGet` is called (once) and the
status is the handler's 200; and a description whose method is not a token is not in
the set either, yet the status is 500, not 405. -/
theorem C1_counterexample :
    ("" ∉ ["GET", "HEAD"] ∧
      ∃ O, HTTPGet (sampleWorld false) (NewServer []) "items" (sampleHandler [] none)
          (sampleRequest "") liveTimeline = some O ∧
        O.handlerCalls.length = 1 ∧ O.out.ReturnValue.res.StatusCode = 200) ∧
    ("BAD METHOD" ∉ ["GET", "HEAD"] ∧
      ∃ O, HTTPGet (sampleWorld false) (NewServer []) "items" (sampleHandler [] none)
          (sampleRequest "BAD METHOD") liveTimeline = some O ∧
        O.handlerCalls = [] ∧ O.out.ReturnValue.res.StatusCode = 500) :=
  ⟨⟨by decide, _, rfl, rfl, rfl⟩, ⟨by decide, _, rfl, rfl, rfl⟩⟩

/-- C3: an envelope that decodes but has no `req` entry gives an outbound envelope
(no panic) with status 500, exactly one fired entry, at error level, whose text is
the only captured log line, and the handler is never called. -/
theorem C3_missing_req (W : World) (opts : List ServerOption) (funcName : String)
    (methods : List String) (handler : HTTPHandler) (r : Request) (T : Timeline)
    (input : invokeInput) (hdec : r.decoded = .ok input) (hreq : input.get "req" = none) :
    ∃ O e text, decorateHTTP W (NewServer opts) funcName methods handler r T = some O ∧
      O.out.ReturnValue.res.StatusCode = 500 ∧
      O.fired = [e] ∧ e.Level = .ErrorLevel ∧ e.Message = "Missing req parameter" ∧
      e.String W = .ok text ∧ O.out.Logs = [text] ∧ O.handlerCalls = [] := by
  obtain ⟨w1, e1, h1⟩ := Error_fresh W (W.StatusText 500) 500 (by decide)
  obtain ⟨e, text, hl, hmsg, hstr, hf, hlogs⟩ := Log_error W (scopedLogger W (NewServer opts) funcName)
    "Missing req parameter"
    { interceptor := (createLogger W (NewServer opts).logLevel funcName).2, fired := [] }
    (error_enabled W opts funcName) (allStr_scopedLogger W _ funcName)
  refine ⟨respond ((scopedLogger W (NewServer opts) funcName).Log W .ErrorLevel
    "Missing req parameter"
    { interceptor := (createLogger W (NewServer opts).logLevel funcName).2, fired := [] }) w1 [] [],
    e, text, ?_, (h1 _).1, ?_, hl, hmsg, hstr, ?_, rfl⟩
  · simp [decorateHTTP, hdec, hreq, e1, scopedLogger]
  · simpa [respond] using hf
  · simp only [respond, (h1 _).2, hlogs]
    simp [createLogger]

/-- C3 on a sample envelope without a `req` entry. -/
theorem C3_missing_req_witness :
    ∃ O e text, HTTPPost (sampleWorld false) (NewServer [.WithDebug]) "items"
        (sampleHandler [] none) { decoded := .ok { Data := [] }, ctxValues := [] }
        liveTimeline = some O ∧
      O.out.ReturnValue.res.StatusCode = 500 ∧
      O.fired = [e] ∧ e.Level = .ErrorLevel ∧ e.Message = "Missing req parameter" ∧
      e.String (sampleWorld false) = .ok text ∧ O.out.Logs = [text] ∧ O.handlerCalls = [] :=
  C3_missing_req (sampleWorld false) [.WithDebug] "items" ["POST"] (sampleHandler [] none)
    { decoded := .ok { Data := [] }, ctxValues := [] } liveTimeline { Data := [] } rfl rfl

theorem code_ne_zero (code : Int) (hc : checkWriteHeaderCode code = true) : code ≠ 0 := by
  simp only [checkWriteHeaderCode, Bool.not_eq_true', Bool.or_eq_false_iff,
    decide_eq_false_iff_not, not_lt] at hc
  omega

theorem hasErrorEntry_Log (W : World) (lg : Entry) (msg : String) (L : LogState)
    (hen : lg.Logger.IsLevelEnabled .ErrorLevel = true) (hd : allStr lg.Data) :
    hasErrorEntry W (lg.Log W .ErrorLevel msg L).fired
      (lg.Log W .ErrorLevel msg L).interceptor.logs := by
  obtain ⟨e, text, hl, _, hstr, hf, hlogs⟩ := Log_error W lg msg L hen hd
  exact ⟨e, by simp [hf], hl, text, by simp [hlogs], hstr⟩

/-- The response part of `renderError` followed by `emitResponse`, on a recorder
whose header is not written. -/
theorem rendered_response (W : World) (hw : ResponseRecorder) (hr : SynthRequest)
    (status : Int) (L : LogState) (lg : Entry) (calls : List SynthRequest)
    (reps : List GoError) (hlg : LoggerFromRequest hr = some lg)
    (hc : checkWriteHeaderCode status = true) (hb : hw.wroteHeader = false) :
    ∃ O, (renderError W hw hr status L).map (fun p => respond p.2 p.1 calls reps) = some O ∧
      O.out.ReturnValue.res = invokeHTTPResponse.mk status
        (hw.HeaderMap.Set "Content-Type" "text/html") (hw.Body ++ renderedBody W status) := by
  obtain ⟨w1, L1, e1, hbody, hu, _, _, _⟩ := renderError_spec W hw hr status L lg hlg hc
  refine ⟨respond L1 w1 calls reps, by simp [e1], ?_⟩
  obtain ⟨h1, h2⟩ := hu hb
  simp [respond, emitResponse, ResponseRecorder.Result, h1, h2, hbody, code_ne_zero status hc]

/-- The log part of `renderError` followed by `emitResponse`. -/
theorem rendered_logs (W : World) (hw : ResponseRecorder) (hr : SynthRequest)
    (status : Int) (L : LogState) (lg : Entry) (calls : List SynthRequest)
    (reps : List GoError) (hlg : LoggerFromRequest hr = some lg)
    (hc : checkWriteHeaderCode status = true)
    (hen : lg.Logger.IsLevelEnabled .ErrorLevel = true) (hd : allStr lg.Data) :
    ∃ O, (renderError W hw hr status L).map (fun p => respond p.2 p.1 calls reps) = some O ∧
      O.handlerCalls = calls ∧ O.reports = reps ∧
      (hasErrorEntry W L.fired L.interceptor.logs → hasErrorEntry W O.fired O.out.Logs) ∧
      (renderFails W status = false → O.fired = L.fired ∧ O.out.Logs = L.interceptor.logs) ∧
      (renderFails W status = true → hasErrorEntry W O.fired O.out.Logs) := by
  obtain ⟨w1, L1, e1, _, _, _, hok, hfail⟩ := renderError_spec W hw hr status L lg hlg hc
  refine ⟨respond L1 w1 calls reps, by simp [e1], rfl, rfl, ?_, ?_, ?_⟩
  · intro hE
    rcases Bool.eq_false_or_eq_true (renderFails W status) with hf | hf
    · obtain ⟨msg, txt, hL⟩ := hfail hf
      obtain ⟨e, he, hl, text, ht, hs⟩ := hE
      refine ⟨e, ?_, hl, text, ?_, hs⟩
      · simpa [respond, hL] using Log_fired_mono W _ _ _ L e he
      · simpa [respond, emitResponse, hL] using Log_logs_mono W _ _ _ L text ht
    · rw [hok hf]; exact hE
  · intro hf; rw [hok hf]; exact ⟨rfl, rfl⟩
  · intro hf
    obtain ⟨msg, txt, hL⟩ := hfail hf
    rw [hL]
    exact hasErrorEntry_Log W _ _ L (by simpa [Entry.WithField] using hen)
      (allStr_WithField _ _ _ hd)

/-- `renderError` then `emitResponse`: both parts at once. -/
theorem rendered (W : World) (hw : ResponseRecorder) (hr : SynthRequest)
    (status : Int) (L : LogState) (lg : Entry) (calls : List SynthRequest)
    (reps : List GoError) (hlg : LoggerFromRequest hr = some lg)
    (hc : checkWriteHeaderCode status = true)
    (hen : lg.Logger.IsLevelEnabled .ErrorLevel = true) (hd : allStr lg.Data) :
    ∃ O, (renderError W hw hr status L).map (fun p => respond p.2 p.1 calls reps) = some O ∧
      O.handlerCalls = calls ∧ O.reports = reps ∧
      (hasErrorEntry W L.fired L.interceptor.logs → hasErrorEntry W O.fired O.out.Logs) ∧
      (renderFails W status = false → O.fired = L.fired ∧ O.out.Logs = L.interceptor.logs) ∧
      (renderFails W status = true → hasErrorEntry W O.fired O.out.Logs) ∧
      (hw.wroteHeader = false → O.out.ReturnValue.res = invokeHTTPResponse.mk status
        (hw.HeaderMap.Set "Content-Type" "text/html") (hw.Body ++ renderedBody W status)) := by
  obtain ⟨O, hO, h1, h2, h3, h4, h5⟩ :=
    rendered_logs W hw hr status L lg calls reps hlg hc hen hd
  refine ⟨O, hO, h1, h2, h3, h4, h5, ?_⟩
  intro hb
  obtain ⟨O2, hO2, h6⟩ := rendered_response W hw hr status L lg calls reps hlg hc hb
  rw [hO] at hO2
  cases hO2
  exact h6

theorem genericFailure_canceled (W : World) (lg : Entry) (hw : ResponseRecorder)
    (hr : SynthRequest) (L : LogState) (T : Timeline) (err : GoError)
    (hlg : LoggerFromRequest hr = some lg)
    (hen : lg.Logger.IsLevelEnabled .ErrorLevel = true) (hd : allStr lg.Data)
    (hT : T.first = some .Canceled) :
    ∃ O, genericFailure W lg hw hr L T err = some O ∧ O.handlerCalls = [hr] ∧ O.reports = [] ∧
      (renderFails W 408 = false → O.fired = L.fired ∧ O.out.Logs = L.interceptor.logs) ∧
      (renderFails W 408 = true → hasErrorEntry W O.fired O.out.Logs) ∧
      (hw.wroteHeader = false → O.out.ReturnValue.res = invokeHTTPResponse.mk 408
        (hw.HeaderMap.Set "Content-Type" "text/html") (hw.Body ++ renderedBody W 408)) := by
  obtain ⟨O, hO, h1, h2, _, h4, h5, h6⟩ :=
    rendered W hw hr 408 L lg [hr] [] hlg (by decide) hen hd
  refine ⟨O, ?_, h1, h2, h4, h5, h6⟩
  simp only [genericFailure, hT, if_true]
  exact hO

theorem genericFailure_logged (W : World) (lg : Entry) (hw : ResponseRecorder)
    (hr : SynthRequest) (L : LogState) (T : Timeline) (err : GoError)
    (hlg : LoggerFromRequest hr = some lg)
    (hen : lg.Logger.IsLevelEnabled .ErrorLevel = true) (hd : allStr lg.Data)
    (hT : T.first ≠ some .Canceled) :
    ∃ O, genericFailure W lg hw hr L T err = some O ∧ O.handlerCalls = [hr] ∧
      O.reports = [err] ∧ hasErrorEntry W O.fired O.out.Logs ∧
      (hw.wroteHeader = false →
        (T.second = some .DeadlineExceeded → O.out.ReturnValue.res = invokeHTTPResponse.mk 408
          (hw.HeaderMap.Set "Content-Type" "text/html") (hw.Body ++ renderedBody W 408)) ∧
        (T.second ≠ some .DeadlineExceeded → W.isLocal = false →
          O.out.ReturnValue.res = invokeHTTPResponse.mk 500
            (hw.HeaderMap.Set "Content-Type" "text/html") (hw.Body ++ renderedBody W 500)) ∧
        (T.second ≠ some .DeadlineExceeded → W.isLocal = true →
          O.out.ReturnValue.res = invokeHTTPResponse.mk 500 hw.HeaderMap
            (hw.Body ++ goBytes (W.Stack err ++ "\n")))) := by
  have hE := hasErrorEntry_Log W (lg.WithFields (strFields (W.LogFields err))) "Handler failed" L
    (by simpa [Entry.WithFields] using hen) (allStr_WithFields _ _ hd)
  by_cases hD : T.second = some .DeadlineExceeded
  · obtain ⟨O, hO, h1, h2, h3, _, _, h6⟩ := rendered W hw hr 408
      ((lg.WithFields (strFields (W.LogFields err))).Log W .ErrorLevel "Handler failed" L) lg
      [hr] [err] hlg (by decide) hen hd
    refine ⟨O, ?_, h1, h2, h3 hE, ?_⟩
    · simp only [genericFailure, if_neg hT, if_pos hD]
      exact hO
    · intro hb
      exact ⟨fun _ => h6 hb, fun h => absurd hD h, fun h => absurd hD h⟩
  · rcases Bool.eq_false_or_eq_true W.isLocal with hl | hl
    · obtain ⟨hw2, e2, h2⟩ := local_write W hw (goBytes (W.Stack err ++ "\n"))
      refine ⟨respond ((lg.WithFields (strFields (W.LogFields err))).Log W .ErrorLevel
        "Handler failed" L) hw2 [hr] [err], ?_, rfl, rfl, hE, ?_⟩
      · simp only [genericFailure, if_neg hT, if_neg hD, hl, if_true, e2, Option.map_some']
      · intro hb
        obtain ⟨c1, c2, c3⟩ := h2 hb
        refine ⟨fun h => absurd h hD, fun _ h => (by rw [hl] at h; cases h), fun _ _ => ?_⟩
        simp [respond, emitResponse, ResponseRecorder.Result, c1, c2, c3]
    · obtain ⟨O, hO, h1, h2, h3, _, _, h6⟩ := rendered W hw hr 500
        ((lg.WithFields (strFields (W.LogFields err))).Log W .ErrorLevel "Handler failed" L) lg
        [hr] [err] hlg (by decide) hen hd
      refine ⟨O, ?_, h1, h2, h3 hE, ?_⟩
      · simp only [genericFailure, if_neg hT, if_neg hD, hl]
        exact hO
      · intro hb
        exact ⟨fun h => absurd h hD, fun _ _ => h6 hb, fun _ h => by rw [hl] at h; cases h⟩

/-- After a handler that wrote nothing, the recorder still has no header written,
no body, the code 200 and no snapshot. -/
theorem after_unwritten (W : World) (hr : SynthRequest) (ops : List Op) (L L1 : LogState)
    (hw1 : ResponseRecorder) (hnw : ∀ op ∈ ops, op.writes = false)
    (h : runOps W hr ops (NewRecorder, L) = some (hw1, L1)) :
    hw1.wroteHeader = false ∧ hw1.Body = [] := by
  obtain ⟨h1, h2, _, _⟩ := runOps_unwritten W hr ops _ _ _ _ hnw h
  exact ⟨h1, h2⟩

theorem renderedBody_ok (W : World) (status : Int) (h : renderFails W status = false) :
    renderedBody W status = (W.templateExecute status).1 := by
  simp only [renderFails, Bool.or_eq_false_iff] at h
  cases hp : W.templateParseErr with
  | some e => simp [hp] at h
  | none =>
    cases hx : (W.templateExecute status).2 with
    | some e => simp [hx] at h
    | none => simp [renderedBody, hp, hx]

theorem isClientError_of (err : GoError) (herr : httpError) (has : As err = some herr)
    (hcode : herr.StatusCode = 400 ∨ herr.StatusCode = 401 ∨ herr.StatusCode = 404) :
    isClientError err = true := by
  simp only [isClientError, has, Bool.or_eq_true, decide_eq_true_eq]
  tauto

theorem isClientError_elim (err : GoError) (h : isClientError err = true) :
    ∃ herr, As err = some herr ∧
      (herr.StatusCode = 400 ∨ herr.StatusCode = 401 ∨ herr.StatusCode = 404) := by
  unfold isClientError at h
  cases has : As err with
  | none => simp [has] at h
  | some herr =>
    simp only [has, Bool.or_eq_true, decide_eq_true_eq] at h
    exact ⟨herr, rfl, by tauto⟩

/-- C2 (amended): when the handler returns an error that is, or wraps, a structured
error with status s in 400, 401, 404, and the handler has not written the response
header (no `WriteHeader`, no `Write`) before returning, the outbound status is s and
the body is what `renderError` writes for s — the rendered page when the template
renders — in every environment mode and whatever the context reports. -/
theorem C2_client_error (W : World) (opts : List ServerOption) (funcName : String)
    (methods : List String) (handler : HTTPHandler) (r : Request) (T : Timeline)
    (hr : SynthRequest) (err : GoError) (herr : httpError)
    (hs : synthesized W (NewServer opts) funcName r = some hr) (hm : hr.Method ∈ methods)
    (hruns : runsToEnd false (handler hr).ops = true)
    (hexit : (handler hr).exit = .returned (some err))
    (has : As err = some herr)
    (hcode : herr.StatusCode = 400 ∨ herr.StatusCode = 401 ∨ herr.StatusCode = 404)
    (hnw : ∀ op ∈ (handler hr).ops, op.writes = false) :
    ∃ O, decorateHTTP W (NewServer opts) funcName methods handler r T = some O ∧
      O.out.ReturnValue.res.StatusCode = herr.StatusCode ∧
      O.out.ReturnValue.res.Body = renderedBody W herr.StatusCode ∧
      (renderFails W herr.StatusCode = false →
        O.out.ReturnValue.res.Body = (W.templateExecute herr.StatusCode).1) := by
  obtain ⟨hw1, L1, hrun, hfail, _⟩ :=
    decorateHTTP_returned W (NewServer opts) funcName methods handler r T hr hs hm hruns
  obtain ⟨hb, hbody⟩ := after_unwritten W hr _ _ _ _ hnw hrun
  obtain ⟨O, hO, hres⟩ := rendered_response W hw1 hr herr.StatusCode
    (Entry.Log W ((((scopedLogger W (NewServer opts) funcName).WithFields
      (strFields (W.LogFields err))).WithField "status"
      (.str (W.StatusText herr.StatusCode))).WithField "reason" (.str herr.Message))
      .ErrorLevel "Handler failed" L1)
    (scopedLogger W (NewServer opts) funcName) [hr] []
    (synthesized_logger W _ funcName r hr hs) (checkCode_of_client _ hcode) hb
  refine ⟨O, ?_, ?_, ?_, ?_⟩
  · rw [hfail err hexit, handlerFailed_client W _ hw1 hr L1 T err herr has hcode]
    exact hO
  · rw [hres]
  · rw [hres, hbody]; rfl
  · intro hf
    rw [hres, hbody, renderedBody_ok W _ hf]; rfl

/-- C2 at the example of the spec: a handler that returns a structured 404. -/
theorem C2_client_error_witness :
    ∃ O, HTTPGet (sampleWorld true) (NewServer []) "items"
        (sampleHandler [] (some (.wrap "trace" (.http ⟨404, "not found"⟩))))
        (sampleRequest "GET") ⟨some .Canceled, none⟩ = some O ∧
      O.out.ReturnValue.res.StatusCode = 404 ∧
      O.out.ReturnValue.res.Body = renderedBody (sampleWorld true) 404 ∧
      (renderFails (sampleWorld true) 404 = false →
        O.out.ReturnValue.res.Body = ((sampleWorld true).templateExecute 404).1) :=
  C2_client_error (sampleWorld true) [] "items" ["GET", "HEAD"]
    (sampleHandler [] (some (.wrap "trace" (.http ⟨404, "not found"⟩))))
    (sampleRequest "GET") ⟨some .Canceled, none⟩ _ _ ⟨404, "not found"⟩ rfl (by decide) rfl rfl
    rfl (by decide) (by simp [sampleHandler])

/-- C2 as stated fails: a handler that writes a byte and then returns a structured
404 gets the status 200 of its own write, in deployed mode with a live context. -/
theorem C2_counterexample :
    As (.http ⟨404, "not found"⟩) = some ⟨404, "not found"⟩ ∧
    ∃ O, HTTPGet (sampleWorld false) (NewServer []) "items"
        (sampleHandler [.Write [0x78]] (some (.http ⟨404, "not found"⟩)))
        (sampleRequest "GET") liveTimeline = some O ∧
      O.out.ReturnValue.res.StatusCode = 200 ∧ O.out.ReturnValue.res.StatusCode ≠ 404 :=
  ⟨rfl, _, rfl, rfl, by decide⟩

/-- C5 (amended): when the context is canceled or past its deadline as the handler
returns, and the handler returned a non-nil error that is not a structured 400, 401
or 404, without having written the response header, the outbound status is 408. -/
theorem C5_timeout_status (W : World) (opts : List ServerOption) (funcName : String)
    (methods : List String) (handler : HTTPHandler) (r : Request) (T : Timeline)
    (hr : SynthRequest) (err : GoError)
    (hs : synthesized W (NewServer opts) funcName r = some hr) (hm : hr.Method ∈ methods)
    (hruns : runsToEnd false (handler hr).ops = true)
    (hexit : (handler hr).exit = .returned (some err))
    (hgen : isClientError err = false)
    (hnw : ∀ op ∈ (handler hr).ops, op.writes = false)
    (hctx : T.atReturn = some .Canceled ∨ T.atReturn = some .DeadlineExceeded) :
    ∃ O, decorateHTTP W (NewServer opts) funcName methods handler r T = some O ∧
      O.out.ReturnValue.res.StatusCode = 408 := by
  obtain ⟨hw1, L1, hrun, hfail, _⟩ :=
    decorateHTTP_returned W (NewServer opts) funcName methods handler r T hr hs hm hruns
  obtain ⟨hb, _⟩ := after_unwritten W hr _ _ _ _ hnw hrun
  have hlg := synthesized_logger W _ funcName r hr hs
  rw [hfail err hexit, handlerFailed_generic W _ hw1 hr L1 T err hgen]
  rcases hctx with hc | hc
  · obtain ⟨O, hO, _, _, _, _, hres⟩ := genericFailure_canceled W _ hw1 hr L1 T err hlg
      (error_enabled W opts funcName) (allStr_scopedLogger W _ funcName) hc
    exact ⟨O, hO, by rw [hres hb]⟩
  · obtain ⟨O, hO, _, _, _, hres⟩ := genericFailure_logged W _ hw1 hr L1 T err hlg
      (error_enabled W opts funcName) (allStr_scopedLogger W _ funcName)
      (by simp [Timeline.first, hc])
    exact ⟨O, hO, by rw [(hres hb).1 (by simp [Timeline.second, hc])]⟩

/-- C5 on a handler that fails after the deadline has passed. -/
theorem C5_timeout_status_witness :
    ∃ O, HTTPPost (sampleWorld false) (NewServer []) "items"
        (sampleHandler [] (some (.plain "gave up"))) (sampleRequest "POST")
        ⟨some .DeadlineExceeded, none⟩ = some O ∧
      O.out.ReturnValue.res.StatusCode = 408 :=
  C5_timeout_status (sampleWorld false) [] "items" ["POST"]
    (sampleHandler [] (some (.plain "gave up"))) (sampleRequest "POST")
    ⟨some .DeadlineExceeded, none⟩ _ (.plain "gave up") rfl (by decide) rfl rfl rfl
    (by simp [sampleHandler]) (Or.inr rfl)

/-- C5 as stated fails: with the context canceled when the handler finishes, a
handler that returns nil gets its recorded response, status 200, not 408; a handler
that returns a structured 404 gets 404; and with the deadline passed, a handler that
wrote a byte before returning a plain error keeps the 200 of its write. -/
theorem C5_counterexample :
    (∃ O, HTTPGet (sampleWorld false) (NewServer []) "items" (sampleHandler [] none)
        (sampleRequest "GET") ⟨some .Canceled, none⟩ = some O ∧
      O.out.ReturnValue.res.StatusCode = 200 ∧ O.out.ReturnValue.res.StatusCode ≠ 408) ∧
    (∃ O, HTTPGet (sampleWorld false) (NewServer []) "items"
        (sampleHandler [] (some (.http ⟨404, "not found"⟩)))
        (sampleRequest "GET") ⟨some .Canceled, none⟩ = some O ∧
      O.out.ReturnValue.res.StatusCode = 404 ∧ O.out.ReturnValue.res.StatusCode ≠ 408) ∧
    (∃ O, HTTPGet (sampleWorld false) (NewServer []) "items"
        (sampleHandler [.Write [0x78]] (some (.plain "gave up")))
        (sampleRequest "GET") ⟨some .DeadlineExceeded, none⟩ = some O ∧
      O.out.ReturnValue.res.StatusCode = 200 ∧ O.out.ReturnValue.res.StatusCode ≠ 408) :=
  ⟨⟨_, rfl, rfl, by decide⟩, ⟨_, rfl, rfl, by decide⟩, ⟨_, rfl, rfl, by decide⟩⟩

/-- C7 (amended): when the handler returns a non-nil error, an error-level entry is
fired and its text is among the outbound `Logs`, in the structured 400/401/404
branch, in the deadline-exceeded branch, in the generic 500 branch of either mode,
and whenever rendering the 408 page fails; the context-canceled branch with a page
that renders is the one left out. -/
theorem C7_error_logged (W : World) (opts : List ServerOption) (funcName : String)
    (methods : List String) (handler : HTTPHandler) (r : Request) (T : Timeline)
    (hr : SynthRequest) (err : GoError)
    (hs : synthesized W (NewServer opts) funcName r = some hr) (hm : hr.Method ∈ methods)
    (hruns : runsToEnd false (handler hr).ops = true)
    (hexit : (handler hr).exit = .returned (some err))
    (hbranch : isClientError err = true ∨ T.first ≠ some .Canceled ∨
      renderFails W 408 = true) :
    ∃ O, decorateHTTP W (NewServer opts) funcName methods handler r T = some O ∧
      hasErrorEntry W O.fired O.out.Logs := by
  obtain ⟨hw1, L1, _, hfail, _⟩ :=
    decorateHTTP_returned W (NewServer opts) funcName methods handler r T hr hs hm hruns
  have hlg := synthesized_logger W _ funcName r hr hs
  have hen := error_enabled W opts funcName
  have hd := allStr_scopedLogger W (NewServer opts) funcName
  rw [hfail err hexit]
  rcases Bool.eq_false_or_eq_true (isClientError err) with hc | hc
  · obtain ⟨herr, has, hcode⟩ := isClientError_elim err hc
    rw [handlerFailed_client W _ hw1 hr L1 T err herr has hcode]
    obtain ⟨O, hO, _, _, h3, _, _, _⟩ := rendered W hw1 hr herr.StatusCode
      (Entry.Log W ((((scopedLogger W (NewServer opts) funcName).WithFields
        (strFields (W.LogFields err))).WithField "status"
        (.str (W.StatusText herr.StatusCode))).WithField "reason" (.str herr.Message))
        .ErrorLevel "Handler failed" L1)
      (scopedLogger W (NewServer opts) funcName) [hr] [] hlg (checkCode_of_client _ hcode) hen hd
    refine ⟨O, hO, h3 (hasErrorEntry_Log W _ _ L1 ?_ ?_)⟩
    · simpa [Entry.WithField, Entry.WithFields] using hen
    · exact allStr_WithField _ _ _ (allStr_WithField _ _ _ (allStr_WithFields _ _ hd))
  · rw [handlerFailed_generic W _ hw1 hr L1 T err hc]
    by_cases hT : T.first = some .Canceled
    · obtain ⟨O, hO, _, _, _, h5, _⟩ := genericFailure_canceled W _ hw1 hr L1 T err hlg hen hd hT
      refine ⟨O, hO, h5 ?_⟩
      rcases hbranch with h | h | h
      · rw [hc] at h; cases h
      · exact absurd hT h
      · exact h
    · obtain ⟨O, hO, _, _, h4, _⟩ := genericFailure_logged W _ hw1 hr L1 T err hlg hen hd hT
      exact ⟨O, hO, h4⟩

/-- C7 on a handler that fails with a plain error in deployed mode, context live. -/
theorem C7_error_logged_witness :
    ∃ O, HTTPGet (sampleWorld false) (NewServer []) "items"
        (sampleHandler [] (some (.plain "boom"))) (sampleRequest "GET") liveTimeline = some O ∧
      hasErrorEntry (sampleWorld false) O.fired O.out.Logs :=
  C7_error_logged (sampleWorld false) [] "items" ["GET", "HEAD"]
    (sampleHandler [] (some (.plain "boom"))) (sampleRequest "GET") liveTimeline _
    (.plain "boom") rfl (by decide) rfl rfl (Or.inr (Or.inl (by decide)))

/-- C7 as stated fails: a handler returns a plain error while the context is
canceled; the 408 page is rendered and emitted with no entry fired at all, so the
outbound `Logs` is empty. -/
theorem C7_counterexample :
    ∃ O, HTTPGet (sampleWorld false) (NewServer []) "items"
        (sampleHandler [] (some (.plain "boom"))) (sampleRequest "GET")
        ⟨some .Canceled, none⟩ = some O ∧
      O.fired = [] ∧ O.out.Logs = [] ∧ ¬ hasErrorEntry (sampleWorld false) O.fired O.out.Logs :=
  ⟨_, rfl, rfl, rfl, by rintro ⟨e, he, _⟩; cases he⟩

/-- C10 (amended): when the handler returns a structured error whose status is not
400, 401 or 404, without having written the response header, the declared status
plays no part: if the context is already canceled when the handler returns, the
status is 408 and nothing is reported; otherwise the error is logged at error level
and reported, and the status is 408 if the deadline has passed and 500 if not. -/
theorem C10_other_status (W : World) (opts : List ServerOption) (funcName : String)
    (methods : List String) (handler : HTTPHandler) (r : Request) (T : Timeline)
    (hr : SynthRequest) (err : GoError) (herr : httpError)
    (hs : synthesized W (NewServer opts) funcName r = some hr) (hm : hr.Method ∈ methods)
    (hruns : runsToEnd false (handler hr).ops = true)
    (hexit : (handler hr).exit = .returned (some err))
    (has : As err = some herr)
    (hout : herr.StatusCode ≠ 400 ∧ herr.StatusCode ≠ 401 ∧ herr.StatusCode ≠ 404)
    (hnw : ∀ op ∈ (handler hr).ops, op.writes = false) :
    ∃ O, decorateHTTP W (NewServer opts) funcName methods handler r T = some O ∧
      (T.first = some .Canceled →
        O.out.ReturnValue.res.StatusCode = 408 ∧ O.reports = []) ∧
      (T.first ≠ some .Canceled →
        O.reports = [err] ∧ hasErrorEntry W O.fired O.out.Logs ∧
        O.out.ReturnValue.res.StatusCode =
          if T.second = some .DeadlineExceeded then 408 else 500) := by
  obtain ⟨hw1, L1, hrun, hfail, _⟩ :=
    decorateHTTP_returned W (NewServer opts) funcName methods handler r T hr hs hm hruns
  obtain ⟨hb, _⟩ := after_unwritten W hr _ _ _ _ hnw hrun
  have hlg := synthesized_logger W _ funcName r hr hs
  have hen := error_enabled W opts funcName
  have hd := allStr_scopedLogger W (NewServer opts) funcName
  have hgen : isClientError err = false := by
    simp only [isClientError, has, Bool.or_eq_false_iff, decide_eq_false_iff_not]
    tauto
  rw [hfail err hexit, handlerFailed_generic W _ hw1 hr L1 T err hgen]
  by_cases hT : T.first = some .Canceled
  · obtain ⟨O, hO, _, h2, _, _, hres⟩ := genericFailure_canceled W _ hw1 hr L1 T err hlg hen hd hT
    exact ⟨O, hO, fun _ => ⟨by rw [hres hb], h2⟩, fun h => absurd hT h⟩
  · obtain ⟨O, hO, _, h2, h3, hres⟩ := genericFailure_logged W _ hw1 hr L1 T err hlg hen hd hT
    refine ⟨O, hO, fun h => absurd h hT, fun _ => ⟨h2, h3, ?_⟩⟩
    obtain ⟨r1, r2, r3⟩ := hres hb
    by_cases hD : T.second = some .DeadlineExceeded
    · rw [if_pos hD, r1 hD]
    · rw [if_neg hD]
      rcases Bool.eq_false_or_eq_true W.isLocal with hl | hl
      · rw [r3 hD hl]
      · rw [r2 hD hl]

/-- C10 at the example of the spec: a structured 403. -/
theorem C10_other_status_witness :
    ∃ O, HTTPGet (sampleWorld false) (NewServer []) "items"
        (sampleHandler [] (some (.http ⟨403, "forbidden"⟩))) (sampleRequest "GET")
        liveTimeline = some O ∧
      (liveTimeline.first = some .Canceled →
        O.out.ReturnValue.res.StatusCode = 408 ∧ O.reports = []) ∧
      (liveTimeline.first ≠ some .Canceled →
        O.reports = [.http ⟨403, "forbidden"⟩] ∧
        hasErrorEntry (sampleWorld false) O.fired O.out.Logs ∧
        O.out.ReturnValue.res.StatusCode =
          if liveTimeline.second = some .DeadlineExceeded then 408 else 500) :=
  C10_other_status (sampleWorld false) [] "items" ["GET", "HEAD"]
    (sampleHandler [] (some (.http ⟨403, "forbidden"⟩))) (sampleRequest "GET") liveTimeline _
    (.http ⟨403, "forbidden"⟩) ⟨403, "forbidden"⟩ rfl (by decide) rfl rfl rfl
    (by decide) (by simp [sampleHandler])

/-- C10 as stated fails: a structured error that declares 500, outside 400, 401 and
404, falls through to the generic branch and the outbound status is 500, which is
the declared status; with the context canceled a structured 403 is neither logged
nor reported; and a handler that records 403 itself before returning a structured
403 gets 403, the declared status. -/
theorem C10_counterexample :
    (∃ O, HTTPGet (sampleWorld false) (NewServer []) "items"
        (sampleHandler [] (some (.http ⟨500, "broken"⟩))) (sampleRequest "GET")
        liveTimeline = some O ∧
      O.out.ReturnValue.res.StatusCode = (httpError.mk 500 "broken").StatusCode) ∧
    (∃ O, HTTPGet (sampleWorld false) (NewServer []) "items"
        (sampleHandler [] (some (.http ⟨403, "forbidden"⟩))) (sampleRequest "GET")
        ⟨some .Canceled, none⟩ = some O ∧
      O.fired = [] ∧ O.reports = [] ∧ O.out.ReturnValue.res.StatusCode = 408) ∧
    (∃ O, HTTPGet (sampleWorld false) (NewServer []) "items"
        (sampleHandler [.WriteHeader 403] (some (.http ⟨403, "forbidden"⟩)))
        (sampleRequest "GET") liveTimeline = some O ∧
      O.out.ReturnValue.res.StatusCode = (httpError.mk 403 "forbidden").StatusCode) :=
  ⟨⟨_, rfl, rfl⟩, ⟨_, rfl, rfl, rfl, rfl⟩, ⟨_, rfl, rfl⟩⟩

theorem renderError_consistent (W : World) (w w1 : ResponseRecorder) (hr : SynthRequest)
    (status : Int) (L L1 : LogState) (h : renderError W w hr status L = some (w1, L1))
    (hc : Consistent W L) : Consistent W L1 := by
  unfold renderError at h
  simp only at h
  cases h0 : ({ w with HeaderMap := w.HeaderMap.Set "Content-Type" "text/html" } :
      ResponseRecorder).WriteHeader status with
  | none => simp [h0] at h
  | some w0 =>
    simp only [h0] at h
    cases hp : W.templateParseErr with
    | some perr =>
      simp only [hp] at h
      cases he : Error W w0 "Internal server error" 500 with
      | none => simp [he] at h
      | some w2 =>
        cases hl : LoggerFromRequest hr with
        | none => simp [he, hl] at h
        | some lg =>
          simp only [he, hl, Option.some.injEq, Prod.mk.injEq] at h
          rw [← h.2]
          exact Log_consistent _ _ _ _ _ hc
    | none =>
      simp only [hp] at h
      cases hwr : w0.Write W (W.templateExecute status).1 with
      | none => simp [hwr] at h
      | some w2 =>
        simp only [hwr] at h
        cases hx : (W.templateExecute status).2 with
        | none =>
          simp only [hx, Option.some.injEq, Prod.mk.injEq] at h
          rw [← h.2]
          exact hc
        | some xerr =>
          simp only [hx] at h
          cases he : Error W w2 "Internal server error" 500 with
          | none => simp [he] at h
          | some w3 =>
            cases hl : LoggerFromRequest hr with
            | none => simp [he, hl] at h
            | some lg =>
              simp only [he, hl, Option.some.injEq, Prod.mk.injEq] at h
              rw [← h.2]
              exact Log_consistent _ _ _ _ _ hc

theorem respond_consistent (W : World) (L : LogState) (hw : ResponseRecorder)
    (calls : List SynthRequest) (reps : List GoError) (hc : Consistent W L) :
    (respond L hw calls reps).out.Logs = captured W (respond L hw calls reps).fired := hc

theorem map_respond_consistent (W : World) (x : Option (ResponseRecorder × LogState))
    (w : ResponseRecorder) (hr : SynthRequest) (status : Int) (L : LogState)
    (calls : List SynthRequest) (reps : List GoError) (O : Outcome)
    (hx : x = renderError W w hr status L) (hc : Consistent W L)
    (h : x.map (fun p => respond p.2 p.1 calls reps) = some O) :
    O.out.Logs = captured W O.fired := by
  subst hx
  cases hr1 : renderError W w hr status L with
  | none => simp [hr1] at h
  | some p =>
    obtain ⟨w1, L1⟩ := p
    simp only [hr1, Option.map_some', Option.some.injEq] at h
    rw [← h]
    exact respond_consistent W _ _ _ _ (renderError_consistent W w w1 hr status L L1 hr1 hc)

theorem genericFailure_consistent (W : World) (lg : Entry) (hw : ResponseRecorder)
    (hr : SynthRequest) (L : LogState) (T : Timeline) (err : GoError) (O : Outcome)
    (h : genericFailure W lg hw hr L T err = some O) (hc : Consistent W L) :
    O.out.Logs = captured W O.fired ∧ O.handlerCalls = [hr] := by
  unfold genericFailure at h
  split at h
  · refine ⟨map_respond_consistent W _ _ _ _ _ _ _ O rfl hc h, ?_⟩
    cases hx : renderError W hw hr 408 L with
    | none => simp [hx] at h
    | some p => simp only [hx, Option.map_some', Option.some.injEq] at h; rw [← h]; rfl
  · simp only at h
    split at h
    · refine ⟨map_respond_consistent W _ _ _ _ _ _ _ O rfl (Log_consistent _ _ _ _ _ hc) h, ?_⟩
      cases hx : renderError W hw hr 408 (Entry.Log W (lg.WithFields (strFields (W.LogFields err)))
        .ErrorLevel "Handler failed" L) with
      | none => simp [hx] at h
      | some p => simp only [hx, Option.map_some', Option.some.injEq] at h; rw [← h]; rfl
    · split at h
      · cases hx : ((hw.WriteHeader 500).bind fun hw1 =>
          hw1.Write W (goBytes (W.Stack err ++ "\n"))) with
        | none => simp [hx] at h
        | some hw2 =>
          simp only [hx, Option.map_some', Option.some.injEq] at h
          rw [← h]
          exact ⟨respond_consistent W _ _ _ _ (Log_consistent _ _ _ _ _ hc), rfl⟩
      · refine ⟨map_respond_consistent W _ _ _ _ _ _ _ O rfl (Log_consistent _ _ _ _ _ hc) h, ?_⟩
        cases hx : renderError W hw hr 500 (Entry.Log W
          (lg.WithFields (strFields (W.LogFields err))) .ErrorLevel "Handler failed" L) with
        | none => simp [hx] at h
        | some p => simp only [hx, Option.map_some', Option.some.injEq] at h; rw [← h]; rfl

theorem handlerFailed_consistent (W : World) (lg : Entry) (hw : ResponseRecorder)
    (hr : SynthRequest) (L : LogState) (T : Timeline) (err : GoError) (O : Outcome)
    (h : handlerFailed W lg hw hr L T err = some O) (hc : Consistent W L) :
    O.out.Logs = captured W O.fired ∧ O.handlerCalls = [hr] := by
  unfold handlerFailed at h
  split at h
  · split at h
    · simp only at h
      refine ⟨map_respond_consistent W _ _ _ _ _ _ _ O rfl (Log_consistent _ _ _ _ _ hc) h, ?_⟩
      rename_i herr _ _
      cases hx : renderError W hw hr herr.StatusCode (Entry.Log W
        (((lg.WithFields (strFields (W.LogFields err))).WithField "status"
          (.str (W.StatusText herr.StatusCode))).WithField "reason" (.str herr.Message))
        .ErrorLevel "Handler failed" L) with
      | none => simp [hx] at h
      | some p => simp only [hx, Option.map_some', Option.some.injEq] at h; rw [← h]; rfl
    · exact genericFailure_consistent W lg hw hr L T err O h hc
  · exact genericFailure_consistent W lg hw hr L T err O h hc

theorem error_respond_consistent (W : World) (msg : String) (code : Int) (L : LogState)
    (O : Outcome) (hc : Consistent W L)
    (h : (Error W NewRecorder msg code).map (fun hw1 => respond L hw1 [] []) = some O) :
    O.out.Logs = captured W O.fired ∧ O.handlerCalls = [] := by
  cases hx : Error W NewRecorder msg code with
  | none => simp [hx] at h
  | some w1 =>
    simp only [hx, Option.map_some', Option.some.injEq] at h
    rw [← h]
    exact ⟨respond_consistent W _ _ _ _ hc, rfl⟩

theorem invoke_consistent (W : World) (lg : Entry) (methods : List String)
    (handler : HTTPHandler) (hr : SynthRequest) (L : LogState) (T : Timeline) (O : Outcome)
    (h : invoke W lg methods handler NewRecorder hr L T = some O) (hc : Consistent W L) :
    O.out.Logs = captured W O.fired ∧ (O.handlerCalls = [] ∨ O.handlerCalls = [hr]) := by
  unfold invoke at h
  split at h
  · obtain ⟨h1, h2⟩ := error_respond_consistent W _ _ L O hc h
    exact ⟨h1, Or.inl h2⟩
  · split at h
    · rename_i hw1 L1 err hrun _
      obtain ⟨h1, h2⟩ := handlerFailed_consistent W lg hw1 hr L1 T err O h
        (runOps_consistent W hr _ _ _ _ _ hrun hc)
      exact ⟨h1, Or.inr h2⟩
    · rename_i hw1 L1 hrun _
      simp only [Option.some.injEq] at h
      rw [← h]
      exact ⟨respond_consistent W _ _ _ _ (runOps_consistent W hr _ _ _ _ _ hrun hc), Or.inr rfl⟩
    · cases h

theorem createLogger_consistent (W : World) (level : Level) (funcName : String) :
    Consistent W { interceptor := (createLogger W level funcName).2, fired := [] } := by
  simp [Consistent, captured, createLogger]

theorem decorateHTTP_consistent (W : World) (server : Server) (funcName : String)
    (methods : List String) (handler : HTTPHandler) (r : Request) (T : Timeline) (O : Outcome)
    (h : decorateHTTP W server funcName methods handler r T = some O) :
    O.out.Logs = captured W O.fired := by
  have h0 := createLogger_consistent W server.logLevel funcName
  unfold decorateHTTP at h
  simp only at h
  split at h
  · exact (error_respond_consistent W _ _ _ O (Log_consistent _ _ _ _ _ h0) h).1
  · split at h
    · exact (error_respond_consistent W _ _ _ O (Log_consistent _ _ _ _ _ h0) h).1
    · split at h
      · exact (error_respond_consistent W _ _ _ O
          (Log_consistent _ _ _ _ _ (Log_consistent _ _ _ _ _ h0)) h).1
      · split at h
        · exact (error_respond_consistent W _ _ _ O
            (Log_consistent _ _ _ _ _ (Log_consistent _ _ _ _ _ h0)) h).1
        · exact (invoke_consistent W _ methods handler _ _ T O h
            (Log_consistent _ _ _ _ _ h0)).1

/-- C6 (amended): the interceptor of a new scoped logger is empty; a `Fire` whose
entry formats appends exactly that one text at the end, and a `Fire` whose entry
fails to format returns the error and leaves the interceptor as it was; and the
`Logs` of the outbound envelope, in memory and on the wire, is the list of the texts
of the fired entries that format, in the order they were fired. -/
theorem C6_logs_capture (W : World) (server : Server) (funcName : String)
    (methods : List String) (handler : HTTPHandler) (r : Request) (T : Timeline) (O : Outcome)
    (h : decorateHTTP W server funcName methods handler r T = some O) :
    (createLogger W server.logLevel funcName).2.logs = [] ∧
    (∀ (li : logInterceptor) (e : Entry),
      (∀ s, e.String W = .ok s → li.Fire W e = (none, { logs := li.logs ++ [s] })) ∧
      (∀ msg, e.String W = .error msg → (li.Fire W e).2 = li ∧ (li.Fire W e).1 ≠ none)) ∧
    O.out.Logs = captured W O.fired ∧ O.sent.Logs = captured W O.fired := by
  refine ⟨rfl, fun li e => ⟨?_, ?_⟩, decorateHTTP_consistent W server funcName methods handler r
    T O h, decorateHTTP_consistent W server funcName methods handler r T O h⟩
  · intro s hs
    simp [logInterceptor.Fire, hs]
  · intro msg hmsg
    simp [logInterceptor.Fire, hmsg]

/-- C6 on a handler that logs two entries, the second below the level of the
logger. -/
theorem C6_logs_capture_witness :
    ∃ O, HTTPGet (sampleWorld false) (NewServer []) "items"
        (sampleHandler [.log .InfoLevel [] "one", .log .DebugLevel [] "two",
          .log .WarnLevel [] "three"] none) (sampleRequest "GET") liveTimeline = some O ∧
      O.out.Logs = ["one", "three"] ∧
      O.out.Logs = captured (sampleWorld false) O.fired :=
  ⟨_, rfl, rfl, (C6_logs_capture (sampleWorld false) (NewServer []) "items" ["GET", "HEAD"]
    (sampleHandler [.log .InfoLevel [] "one", .log .DebugLevel [] "two",
      .log .WarnLevel [] "three"] none) (sampleRequest "GET") liveTimeline _ rfl).2.2.1⟩

/-- C6 as stated fails: in deployed mode a `Fire` on an entry with a field that
does not marshal returns an error and appends nothing; a handler that logs such an
entry through the scoped logger gets an outbound `Logs` without it. -/
theorem C6_counterexample :
    ((logInterceptor.Fire (sampleWorld false) { logs := ["first"] } sampleBadEntry).2.logs
        = ["first"] ∧
      (logInterceptor.Fire (sampleWorld false) { logs := ["first"] } sampleBadEntry).1 ≠ none) ∧
    ∃ O, HTTPGet (sampleWorld false) (NewServer []) "items"
        (sampleHandler [.log .InfoLevel [("ratio", .unsupported "NaN")] "computed"] none)
        (sampleRequest "GET") liveTimeline = some O ∧
      O.fired.length = 1 ∧ O.out.Logs = [] :=
  ⟨⟨rfl, by decide⟩, _, rfl, rfl, rfl⟩

/-! ### The JSON string coercion -/

/-- Any bound at or above the length gives the same coercion: `p.length` steps are
enough. -/
theorem coerceLoop_fuel (f1 : Nat) :
    ∀ (f2 : Nat) (p : Bytes), p.length ≤ f1 → p.length ≤ f2 →
      coerceLoop f1 p = coerceLoop f2 p := by
  induction f1 with
  | zero =>
    intro f2 p h1 _
    have hp : p = [] := List.eq_nil_of_length_eq_zero (Nat.le_zero.1 h1)
    subst hp
    cases f2 <;> rfl
  | succ f1 ih =>
    intro f2 p h1 h2
    cases p with
    | nil => cases f2 <;> rfl
    | cons b rest =>
      cases f2 with
      | zero => simp at h2
      | succ g =>
        simp only [List.length_cons, Nat.add_le_add_iff_right] at h1 h2
        simp only [coerceLoop]
        cases hw : runeWidth (b :: rest) with
        | zero => simp only [ih g rest h1 h2]
        | succ n =>
          have hd : (rest.drop n).length ≤ rest.length := by
            rw [List.length_drop]; exact Nat.sub_le _ _
          simp only [ih g (rest.drop n) (le_trans hd h1) (le_trans hd h2)]

/-- Any bound at or above the length gives the same validity verdict. -/
theorem validLoop_fuel (f1 : Nat) :
    ∀ (f2 : Nat) (p : Bytes), p.length ≤ f1 → p.length ≤ f2 →
      validLoop f1 p = validLoop f2 p := by
  induction f1 with
  | zero =>
    intro f2 p h1 _
    have hp : p = [] := List.eq_nil_of_length_eq_zero (Nat.le_zero.1 h1)
    subst hp
    cases f2 <;> rfl
  | succ f1 ih =>
    intro f2 p h1 h2
    cases p with
    | nil => cases f2 <;> rfl
    | cons b rest =>
      cases f2 with
      | zero => simp at h2
      | succ g =>
        simp only [List.length_cons, Nat.add_le_add_iff_right] at h1 h2
        simp only [validLoop]
        cases hw : runeWidth (b :: rest) with
        | zero => rfl
        | succ n =>
          have hd : (rest.drop n).length ≤ rest.length := by
            rw [List.length_drop]; exact Nat.sub_le _ _
          simp only [ih g (rest.drop n) (le_trans hd h1) (le_trans hd h2)]

/-- On valid UTF-8 the coercion changes nothing. -/
theorem coerceLoop_of_valid (fuel : Nat) :
    ∀ p : Bytes, validLoop fuel p = true → coerceLoop fuel p = p := by
  induction fuel with
  | zero =>
    intro p h
    cases p with
    | nil => rfl
    | cons b rest => simp [validLoop] at h
  | succ fuel ih =>
    intro p h
    cases p with
    | nil => rfl
    | cons b rest =>
      simp only [validLoop] at h
      simp only [coerceLoop]
      cases hw : runeWidth (b :: rest) with
      | zero => simp [hw] at h
      | succ n =>
        simp only [hw] at h
        simp only [ih _ h, List.cons_append, List.take_append_drop]

theorem jsonString_of_valid (p : Bytes) (h : utf8Valid p = true) : jsonString p = p :=
  coerceLoop_of_valid p.length p h

/-- C4 (amended): for a handler that returns nil, the envelope handed to the encoder
mirrors the recording for every byte sequence: the status is the one the handler
recorded (200 when it set none), the headers are the recorded header map, the body
is the bytes written. On the wire the status and the headers are the same, and the
body is the JSON string form of the bytes written: the same bytes when they are
valid UTF-8. -/
theorem C4_response_mirror (W : World) (opts : List ServerOption) (funcName : String)
    (methods : List String) (handler : HTTPHandler) (r : Request) (T : Timeline)
    (hr : SynthRequest)
    (hs : synthesized W (NewServer opts) funcName r = some hr) (hm : hr.Method ∈ methods)
    (hruns : runsToEnd false (handler hr).ops = true)
    (hexit : (handler hr).exit = .returned none) :
    ∃ O, decorateHTTP W (NewServer opts) funcName methods handler r T = some O ∧
      O.out.ReturnValue.res.StatusCode = recordedStatus (handler hr).ops ∧
      O.out.ReturnValue.res.Headers = recordedHeaders W [] (handler hr).ops ∧
      O.out.ReturnValue.res.Body = writtenBytes (handler hr).ops ∧
      O.sent.ReturnValue.res.StatusCode = recordedStatus (handler hr).ops ∧
      O.sent.ReturnValue.res.Headers = recordedHeaders W [] (handler hr).ops ∧
      O.sent.ReturnValue.res.Body = jsonString (writtenBytes (handler hr).ops) ∧
      (utf8Valid (writtenBytes (handler hr).ops) = true →
        O.sent.ReturnValue.res.Body = writtenBytes (handler hr).ops) := by
  obtain ⟨hw1, L1, hrun, _, hnil⟩ :=
    decorateHTTP_returned W (NewServer opts) funcName methods handler r T hr hs hm hruns
  obtain ⟨h1, h2, h3⟩ := runOps_result W hr _ _ _ _ _ rfl rfl rfl hrun
  have hbody : hw1.Result.Body = writtenBytes (handler hr).ops := by
    rw [h3]; rfl
  refine ⟨respond L1 hw1 [hr] [], hnil hexit, h1, h2, hbody, h1, h2, ?_, ?_⟩
  · show jsonString hw1.Result.Body = _
    rw [hbody]
  · intro hv
    show jsonString hw1.Result.Body = _
    rw [hbody, jsonString_of_valid _ hv]

/-- C4 on a handler that sets a header, records 201 and writes two chunks of text. -/
theorem C4_response_mirror_witness :
    ∃ O, HTTPPost (sampleWorld false) (NewServer []) "items"
        (sampleHandler [.header (fun h => h.Set "X-Id" "7"), .WriteHeader 201,
          .Write (goBytes "cr"), .Write (goBytes "éé")] none)
        (sampleRequest "POST") liveTimeline = some O ∧
      O.sent.ReturnValue.res.StatusCode = 201 ∧
      O.sent.ReturnValue.res.Headers = [("X-Id", ["7"])] ∧
      O.sent.ReturnValue.res.Body = goBytes "créé" := by
  obtain ⟨O, hO, _, _, _, h4, h5, _, h7⟩ :=
    C4_response_mirror (sampleWorld false) [] "items" ["POST"]
      (sampleHandler [.header (fun h => h.Set "X-Id" "7"), .WriteHeader 201,
        .Write (goBytes "cr"), .Write (goBytes "éé")] none)
      (sampleRequest "POST") liveTimeline _ rfl (by decide) (by decide) rfl
  exact ⟨O, hO, h4, h5, h7 (by decide)⟩

/-- C4 as stated fails for a body that is not valid UTF-8: a handler writes the
single byte 0xFF and returns nil; the body the host reads is the three bytes of
U+FFFD, not the byte written. -/
theorem C4_counterexample :
    ∃ O, HTTPGet (sampleWorld false) (NewServer []) "items"
        (sampleHandler [.Write [0xFF]] none) (sampleRequest "GET") liveTimeline = some O ∧
      writtenBytes [.Write [0xFF]] = [0xFF] ∧
      O.sent.ReturnValue.res.Body = [0xEF, 0xBF, 0xBD] ∧
      O.sent.ReturnValue.res.Body ≠ writtenBytes [.Write [0xFF]] :=
  ⟨_, rfl, rfl, rfl, by decide⟩

/-! ### The request handed to the handler -/

/-- Once the handler has returned an error, the error block always emits a
response, and the call recorded is the one with `hr`. -/
theorem handlerFailed_some (W : World) (lg : Entry) (hw : ResponseRecorder)
    (hr : SynthRequest) (L : LogState) (T : Timeline) (err : GoError)
    (hlg : LoggerFromRequest hr = some lg) :
    ∃ O, handlerFailed W lg hw hr L T err = some O ∧ O.handlerCalls = [hr] := by
  have render : ∀ (status : Int) (L0 : LogState) (reps : List GoError),
      checkWriteHeaderCode status = true →
      ∃ O, (renderError W hw hr status L0).map (fun p => respond p.2 p.1 [hr] reps) = some O ∧
        O.handlerCalls = [hr] := by
    intro status L0 reps hc
    obtain ⟨w1, L1, e1, _⟩ := renderError_spec W hw hr status L0 lg hlg hc
    exact ⟨respond L1 w1 [hr] reps, by simp [e1], rfl⟩
  have generic : ∃ O, genericFailure W lg hw hr L T err = some O ∧ O.handlerCalls = [hr] := by
    unfold genericFailure
    by_cases hT : T.first = some .Canceled
    · simp only [if_pos hT]
      exact render 408 _ _ (by decide)
    · simp only [if_neg hT]
      by_cases hD : T.second = some .DeadlineExceeded
      · simp only [if_pos hD]
        exact render 408 _ _ (by decide)
      · simp only [if_neg hD]
        rcases Bool.eq_false_or_eq_true W.isLocal with hl | hl
        · obtain ⟨hw2, e2, _⟩ := local_write W hw (goBytes (W.Stack err ++ "\n"))
          simp only [hl, if_true, e2, Option.map_some']
          exact ⟨_, rfl, rfl⟩
        · simp only [hl]
          exact render 500 _ _ (by decide)
  unfold handlerFailed
  cases has : As err with
  | none => exact generic
  | some herr =>
    simp only
    by_cases hc : herr.StatusCode = 404 ∨ herr.StatusCode = 401 ∨ herr.StatusCode = 400
    · simp only [if_pos hc]
      exact render herr.StatusCode _ _ (checkCode_of_client _ (by tauto))
    · simp only [if_neg hc]
      exact generic

/-- The invocation consults the handler on the synthesized request only. -/
theorem decorateHTTP_congr (W : World) (server : Server) (funcName : String)
    (methods : List String) (handler1 handler2 : HTTPHandler) (r : Request) (T : Timeline)
    (h : ∀ hr, synthesized W server funcName r = some hr → handler1 hr = handler2 hr) :
    decorateHTTP W server funcName methods handler1 r T =
      decorateHTTP W server funcName methods handler2 r T := by
  cases hs : synthesized W server funcName r with
  | some hr =>
    rw [decorateHTTP_of_synthesized W server funcName methods handler1 r T hr hs,
      decorateHTTP_of_synthesized W server funcName methods handler2 r T hr hs]
    unfold invoke
    rw [h hr hs]
  | none =>
    unfold synthesized at hs
    unfold decorateHTTP
    cases h1 : r.decoded with
    | error e => rfl
    | ok input =>
      simp only [h1] at hs ⊢
      cases h2 : input.get "req" with
      | none => rfl
      | some req =>
        simp only [h2] at hs ⊢
        cases h3 : req.unmarshal with
        | error e => rfl
        | ok inreq =>
          simp only [h3] at hs ⊢
          cases h4 : NewRequestWithContext W (invocationCtx r (scopedLogger W server funcName))
              inreq.Method inreq.URL inreq.Body with
          | error e =>
            simp only [scopedLogger] at h4
            simp only [h4]
          | ok hr0 => simp [h4] at hs

/-- The request built from a description that decodes. -/
theorem synthesized_of_decoded (W : World) (server : Server) (funcName : String) (r : Request)
    (input : invokeInput) (req : RawMessage) (inreq : invokeHTTPRequest)
    (hdec : r.decoded = .ok input) (hreq : input.get "req" = some req)
    (hun : req.unmarshal = .ok inreq)
    (hvalid : validMethod (if inreq.Method = "" then "GET" else inreq.Method) = true)
    (hurl : W.urlParseErr inreq.URL = none) :
    synthesized W server funcName r = some
      { Method := if inreq.Method = "" then "GET" else inreq.Method, URL := inreq.URL,
        Header := inreq.Headers, Body := inreq.Body,
        ctx := invocationCtx r (createLogger W server.logLevel funcName).1 } := by
  simp [synthesized, hdec, hreq, hun, NewRequestWithContext, hvalid, hurl, scopedLogger]

theorem map_respond_calls (x : Option ResponseRecorder) (L : LogState) (O : Outcome)
    (h : x.map (fun hw1 => respond L hw1 [] []) = some O) : O.handlerCalls = [] := by
  cases x with
  | none => simp at h
  | some w => simp only [Option.map_some', Option.some.injEq] at h; rw [← h]; rfl

theorem logAtCall_consistent (W : World) (server : Server) (funcName : String) (r : Request) :
    Consistent W (logAtCall W server funcName r) := by
  have h0 := createLogger_consistent W server.logLevel funcName
  unfold logAtCall
  simp only
  cases r.decoded with
  | error e => exact h0
  | ok input =>
    simp only
    cases input.get "req" with
    | none => exact h0
    | some req => exact Log_consistent _ _ _ _ _ h0

/-- The calls an emitted outcome records: none, or the single call with the
synthesized request. -/
theorem decorateHTTP_calls (W : World) (server : Server) (funcName : String)
    (methods : List String) (handler : HTTPHandler) (r : Request) (T : Timeline) (O : Outcome)
    (h : decorateHTTP W server funcName methods handler r T = some O) :
    O.handlerCalls = [] ∨
      ∃ hr, synthesized W server funcName r = some hr ∧ O.handlerCalls = [hr] := by
  cases hs : synthesized W server funcName r with
  | some hr =>
    rw [decorateHTTP_of_synthesized W server funcName methods handler r T hr hs] at h
    rcases (invoke_consistent W _ methods handler hr _ T O h
      (logAtCall_consistent W server funcName r)).2 with hc | hc
    · exact Or.inl hc
    · exact Or.inr ⟨hr, rfl, hc⟩
  | none =>
    left
    unfold synthesized at hs
    unfold decorateHTTP at h
    cases h1 : r.decoded with
    | error e =>
      simp only [h1] at h
      exact map_respond_calls _ _ O h
    | ok input =>
      simp only [h1] at hs h
      cases h2 : input.get "req" with
      | none =>
        simp only [h2] at h
        exact map_respond_calls _ _ O h
      | some req =>
        simp only [h2] at hs h
        cases h3 : req.unmarshal with
        | error e =>
          simp only [h3] at h
          exact map_respond_calls _ _ O h
        | ok inreq =>
          simp only [h3] at hs h
          cases h4 : NewRequestWithContext W (invocationCtx r (scopedLogger W server funcName))
              inreq.Method inreq.URL inreq.Body with
          | error e =>
            simp only [scopedLogger] at h4
            simp only [h4] at h
            exact map_respond_calls _ _ O h
          | ok hr0 => simp [h4] at hs

/-- The synthesized request carries both ambient values. -/
theorem synthesized_values (W : World) (server : Server) (funcName : String) (r : Request)
    (hr : SynthRequest) (hs : synthesized W server funcName r = some hr) :
    RequestFromContext hr.Context = some r ∧
      LoggerFromContext hr.Context = some (createLogger W server.logLevel funcName).1 ∧
      LoggerFromRequest hr = some (createLogger W server.logLevel funcName).1 := by
  have hctx := synthesized_ctx W server funcName r hr hs
  refine ⟨?_, ?_, synthesized_logger W server funcName r hr hs⟩
  · simp only [SynthRequest.Context, hctx]; exact invocationCtx_request r _
  · simp only [SynthRequest.Context, hctx]; exact invocationCtx_logger r _

/-- C9: `decorateHTTP` hands the handler no request but one that carries both
ambient values, whatever the outcome: two handlers that agree on every request for
which `RequestFromContext` gives the inbound request `r` and `LoggerFromContext`,
`LoggerFromRequest` give the scoped logger of the invocation lead to the same result,
and every call an outcome records is with such a request. When the envelope and the
description decode, the method is a token, the URL parses and the method is
accepted, the handler is called with the request `hr` built from the description in
the context `invocationCtx`: `hr` carries both values, a panic of the handler on `hr`
ends the invocation, a return of the handler on `hr` gives an outcome whose only
recorded call is `hr`, and the result depends on the handler through its run on `hr`
alone. The two keys differ, and installing a value under one key leaves the
accessor of the other unchanged. -/
theorem C9_context_values (W : World) (server : Server) (funcName : String)
    (methods : List String) (r : Request) (T : Timeline) :
    (∀ handler1 handler2 : HTTPHandler,
      (∀ x : SynthRequest, RequestFromContext x.Context = some r →
        LoggerFromContext x.Context = some (createLogger W server.logLevel funcName).1 →
        LoggerFromRequest x = some (createLogger W server.logLevel funcName).1 →
        handler1 x = handler2 x) →
      decorateHTTP W server funcName methods handler1 r T =
        decorateHTTP W server funcName methods handler2 r T) ∧
    (∀ (handler : HTTPHandler) (O : Outcome),
      decorateHTTP W server funcName methods handler r T = some O →
      ∀ x ∈ O.handlerCalls, RequestFromContext x.Context = some r ∧
        LoggerFromContext x.Context = some (createLogger W server.logLevel funcName).1 ∧
        LoggerFromRequest x = some (createLogger W server.logLevel funcName).1) ∧
    (∀ (input : invokeInput) (req : RawMessage) (inreq : invokeHTTPRequest) (hr : SynthRequest),
      r.decoded = .ok input → input.get "req" = some req → req.unmarshal = .ok inreq →
      validMethod (if inreq.Method = "" then "GET" else inreq.Method) = true →
      W.urlParseErr inreq.URL = none →
      hr = SynthRequest.mk (if inreq.Method = "" then "GET" else inreq.Method) inreq.URL
        inreq.Headers inreq.Body (invocationCtx r (createLogger W server.logLevel funcName).1) →
      hr.Method ∈ methods →
      (RequestFromContext hr.Context = some r ∧
        LoggerFromContext hr.Context = some (createLogger W server.logLevel funcName).1 ∧
        LoggerFromRequest hr = some (createLogger W server.logLevel funcName).1) ∧
      (∀ handler : HTTPHandler, (handler hr).exit = .panicked →
        decorateHTTP W server funcName methods handler r T = none) ∧
      (∀ (handler : HTTPHandler) (e : Option GoError),
        runsToEnd false (handler hr).ops = true → (handler hr).exit = .returned e →
        ∃ O, decorateHTTP W server funcName methods handler r T = some O ∧
          O.handlerCalls = [hr]) ∧
      (∀ handler1 handler2 : HTTPHandler, handler1 hr = handler2 hr →
        decorateHTTP W server funcName methods handler1 r T =
          decorateHTTP W server funcName methods handler2 r T)) ∧
    requestKey ≠ loggerKey ∧
    (∀ ctx v, RequestFromContext (Context.WithValue ctx loggerKey v) = RequestFromContext ctx) ∧
    (∀ ctx v, LoggerFromContext (Context.WithValue ctx requestKey v) = LoggerFromContext ctx) := by
  refine ⟨?_, ?_, ?_, by decide, ?_, ?_⟩
  · intro handler1 handler2 hagree
    apply decorateHTTP_congr
    intro hr hs
    obtain ⟨v1, v2, v3⟩ := synthesized_values W server funcName r hr hs
    exact hagree hr v1 v2 v3
  · intro handler O hO x hx
    rcases decorateHTTP_calls W server funcName methods handler r T O hO with hc | ⟨hr, hs, hc⟩
    · rw [hc] at hx; cases hx
    · rw [hc] at hx
      have : x = hr := by simpa using hx
      rw [this]
      exact synthesized_values W server funcName r hr hs
  · intro input req inreq hr hdec hreq hun hvalid hurl hhr hm
    have hs : synthesized W server funcName r = some hr := by
      rw [hhr]
      exact synthesized_of_decoded W server funcName r input req inreq hdec hreq hun hvalid hurl
    refine ⟨synthesized_values W server funcName r hr hs, ?_, ?_, ?_⟩
    · intro handler hp
      rw [decorateHTTP_of_synthesized W server funcName methods handler r T hr hs]
      unfold invoke
      rw [if_neg (by simpa using hm), hp]
      cases runOps W hr (handler hr).ops (NewRecorder, logAtCall W server funcName r) <;> rfl
    · intro handler e hruns hexit
      obtain ⟨hw1, L1, _, hfail, hnil⟩ :=
        decorateHTTP_returned W server funcName methods handler r T hr hs hm hruns
      cases e with
      | none => exact ⟨_, hnil hexit, rfl⟩
      | some err =>
        rw [hfail err hexit]
        exact handlerFailed_some W _ hw1 hr L1 T err (synthesized_logger W server funcName r hr hs)
    · intro handler1 handler2 hsame
      apply decorateHTTP_congr
      intro hr2 hs2
      rw [hs] at hs2
      cases hs2
      exact hsame
  · intro ctx v
    simp [RequestFromContext, Context.Value, requestKey, loggerKey]
  · intro ctx v
    simp [LoggerFromContext, Context.Value, requestKey, loggerKey]

/-- C9 on a sample invocation: the handler registered with `HTTPGet` is called, its
only recorded call is with the request built from the description, and that
request gives back the inbound request and the scoped logger. -/
theorem C9_context_values_witness :
    (∃ O, HTTPGet (sampleWorld false) (NewServer []) "items"
        (sampleHandler [] (some (.plain "boom"))) (sampleRequest "GET") liveTimeline = some O ∧
      O.handlerCalls = [SynthRequest.mk "GET" "/api/items" [] ""
        (invocationCtx (sampleRequest "GET")
          (createLogger (sampleWorld false) (NewServer []).logLevel "items").1)]) ∧
    RequestFromContext (SynthRequest.Context (SynthRequest.mk "GET" "/api/items" [] ""
        (invocationCtx (sampleRequest "GET")
          (createLogger (sampleWorld false) (NewServer []).logLevel "items").1))) =
      some (sampleRequest "GET") ∧
    HTTPGet (sampleWorld false) (NewServer []) "items"
        (fun _ => { ops := [], exit := .panicked }) (sampleRequest "GET") liveTimeline = none :=
  have h := (C9_context_values (sampleWorld false) (NewServer []) "items" ["GET", "HEAD"]
    (sampleRequest "GET") liveTimeline).2.2.1 _ _ _ _ rfl rfl rfl (by decide) rfl rfl
    (by decide)
  ⟨h.2.2.1 (sampleHandler [] (some (.plain "boom"))) _ rfl rfl, h.1.1,
    h.2.1 (fun _ => { ops := [], exit := .panicked }) rfl⟩

/-! ### The deployed 500 page -/

/-- The deployed 500 answer to an unclassified error of a handler that wrote
nothing. -/
theorem generic_deployed (W : World) (hW : W.isLocal = false) (opts : List ServerOption)
    (funcName : String) (methods : List String) (handler : HTTPHandler) (r : Request)
    (T : Timeline) (hr : SynthRequest) (e : GoError)
    (hs : synthesized W (NewServer opts) funcName r = some hr) (hm : hr.Method ∈ methods)
    (hruns : runsToEnd false (handler hr).ops = true)
    (hnw : ∀ op ∈ (handler hr).ops, op.writes = false)
    (hx : (handler hr).exit = .returned (some e))
    (hg : isClientError e = false)
    (hT1 : T.first ≠ some .Canceled) (hT2 : T.second ≠ some .DeadlineExceeded) :
    ∃ O, decorateHTTP W (NewServer opts) funcName methods handler r T = some O ∧
      O.out.ReturnValue.res = invokeHTTPResponse.mk 500
        ((recordedHeaders W [] (handler hr).ops).Set "Content-Type" "text/html")
        (renderedBody W 500) ∧
      ((∀ op ∈ (handler hr).ops, op.touches = false) →
        recordedHeaders W [] (handler hr).ops = []) := by
  obtain ⟨hw1, L1, hrun, hfail, _⟩ :=
    decorateHTTP_returned W (NewServer opts) funcName methods handler r T hr hs hm hruns
  obtain ⟨hb, hbody, _, hsnap⟩ := runOps_unwritten W hr _ _ _ _ _ hnw hrun
  obtain ⟨_, hhead, _⟩ := runOps_result W hr _ _ _ _ _ rfl rfl rfl hrun
  have hmap : hw1.HeaderMap = recordedHeaders W [] (handler hr).ops := by
    have hh : hw1.Result.Header = recordedHeaders W [] (handler hr).ops := hhead
    rw [← hh]
    simp [ResponseRecorder.Result, hsnap, NewRecorder]
  obtain ⟨O, hO, _, _, _, hres⟩ := genericFailure_logged W _ hw1 hr L1 T e
    (synthesized_logger W _ funcName r hr hs) (error_enabled W opts funcName)
    (allStr_scopedLogger W (NewServer opts) funcName) hT1
  have r1 := (hres hb).2.1 hT2 hW
  refine ⟨O, ?_, ?_, ?_⟩
  · rw [hfail e hx, handlerFailed_generic W _ hw1 hr L1 T e hg]; exact hO
  · rw [r1, hmap, hbody]; rfl
  · intro ht
    have := runOps_untouched W hr _ _ _ _ _ ht hrun
    rw [← hmap, this]; rfl

/-- C8 (amended): in a deployed environment, take any two invocations whose
handlers wrote nothing (no `WriteHeader`, no `Write`) and returned errors that both
reach the generic 500 branch (neither is a structured 400/401/404, the context is
not canceled at the first check nor past its deadline at the second). Their
outbound status is 500 and their body is what `renderError` writes for 500 (the
page when the template renders), the same for both; the headers of each are the
header map its handler left, with `Content-Type: text/html` set. So the two `res`
are identical, in memory and on the wire, when the two handlers left the same header
map, and the headers are `Content-Type: text/html` alone for a handler that did not
touch the recorder. -/
theorem C8_generic_page (W : World) (hW : W.isLocal = false)
    (opts1 opts2 : List ServerOption) (funcName1 funcName2 : String)
    (methods1 methods2 : List String) (handler1 handler2 : HTTPHandler) (r1 r2 : Request)
    (T1 T2 : Timeline) (hr1 hr2 : SynthRequest) (e1 e2 : GoError)
    (hs1 : synthesized W (NewServer opts1) funcName1 r1 = some hr1)
    (hs2 : synthesized W (NewServer opts2) funcName2 r2 = some hr2)
    (hm1 : hr1.Method ∈ methods1) (hm2 : hr2.Method ∈ methods2)
    (hruns1 : runsToEnd false (handler1 hr1).ops = true)
    (hruns2 : runsToEnd false (handler2 hr2).ops = true)
    (hnw1 : ∀ op ∈ (handler1 hr1).ops, op.writes = false)
    (hnw2 : ∀ op ∈ (handler2 hr2).ops, op.writes = false)
    (hx1 : (handler1 hr1).exit = .returned (some e1))
    (hx2 : (handler2 hr2).exit = .returned (some e2))
    (hg1 : isClientError e1 = false) (hg2 : isClientError e2 = false)
    (hT1 : T1.first ≠ some .Canceled ∧ T1.second ≠ some .DeadlineExceeded)
    (hT2 : T2.first ≠ some .Canceled ∧ T2.second ≠ some .DeadlineExceeded) :
    ∃ O1 O2, decorateHTTP W (NewServer opts1) funcName1 methods1 handler1 r1 T1 = some O1 ∧
      decorateHTTP W (NewServer opts2) funcName2 methods2 handler2 r2 T2 = some O2 ∧
      (O1.out.ReturnValue.res.StatusCode = 500 ∧ O2.out.ReturnValue.res.StatusCode = 500) ∧
      (O1.out.ReturnValue.res.Body = renderedBody W 500 ∧
        O2.out.ReturnValue.res.Body = renderedBody W 500) ∧
      (renderFails W 500 = false →
        O1.out.ReturnValue.res.Body = (W.templateExecute 500).1 ∧
        O2.out.ReturnValue.res.Body = (W.templateExecute 500).1) ∧
      (O1.out.ReturnValue.res.Headers =
          (recordedHeaders W [] (handler1 hr1).ops).Set "Content-Type" "text/html" ∧
        O2.out.ReturnValue.res.Headers =
          (recordedHeaders W [] (handler2 hr2).ops).Set "Content-Type" "text/html") ∧
      (recordedHeaders W [] (handler1 hr1).ops = recordedHeaders W [] (handler2 hr2).ops →
        O1.out.ReturnValue = O2.out.ReturnValue ∧ O1.sent.ReturnValue = O2.sent.ReturnValue) ∧
      ((∀ op ∈ (handler1 hr1).ops, op.touches = false) →
        O1.out.ReturnValue.res.Headers = [("Content-Type", ["text/html"])]) ∧
      ((∀ op ∈ (handler1 hr1).ops, op.touches = false) →
        (∀ op ∈ (handler2 hr2).ops, op.touches = false) →
        O1.out.ReturnValue = O2.out.ReturnValue ∧ O1.sent.ReturnValue = O2.sent.ReturnValue) := by
  obtain ⟨O1, hO1, res1, un1⟩ := generic_deployed W hW opts1 funcName1 methods1 handler1 r1 T1
    hr1 e1 hs1 hm1 hruns1 hnw1 hx1 hg1 hT1.1 hT1.2
  obtain ⟨O2, hO2, res2, un2⟩ := generic_deployed W hW opts2 funcName2 methods2 handler2 r2 T2
    hr2 e2 hs2 hm2 hruns2 hnw2 hx2 hg2 hT2.1 hT2.2
  have same : recordedHeaders W [] (handler1 hr1).ops = recordedHeaders W [] (handler2 hr2).ops →
      O1.out.ReturnValue = O2.out.ReturnValue ∧ O1.sent.ReturnValue = O2.sent.ReturnValue := by
    intro hh
    have heq : O1.out.ReturnValue = O2.out.ReturnValue := by
      cases h1 : O1.out.ReturnValue
      cases h2 : O2.out.ReturnValue
      simp only [h1] at res1
      simp only [h2] at res2
      rw [res1, res2, hh]
    exact ⟨heq, by simp only [Outcome.sent, Encode, heq]⟩
  refine ⟨O1, O2, hO1, hO2, ⟨by rw [res1], by rw [res2]⟩, ⟨by rw [res1], by rw [res2]⟩, ?_,
    ⟨by rw [res1], by rw [res2]⟩, same, ?_, ?_⟩
  · intro hf
    exact ⟨by rw [res1]; exact renderedBody_ok W _ hf, by rw [res2]; exact renderedBody_ok W _ hf⟩
  · intro ht
    rw [res1, un1 ht]; rfl
  · intro ht1 ht2
    exact same (by rw [un1 ht1, un2 ht2])

/-- C8 on two invocations, of different functions and with different errors, whose
handlers set the same header. -/
theorem C8_generic_page_witness :
    ∃ O1 O2, HTTPGet (sampleWorld false) (NewServer []) "items"
        (sampleHandler [.header (fun h => h.Set "X-Id" "7")]
          (some (.plain "db password rejected"))) (sampleRequest "GET") liveTimeline = some O1 ∧
      HTTPPost (sampleWorld false) (NewServer [.WithDebug]) "orders"
        (sampleHandler [.header (fun h => h.Set "X-Id" "7")]
          (some (.wrap "trace" (.http ⟨403, "forbidden"⟩))))
        (sampleRequest "POST") ⟨none, some .Canceled⟩ = some O2 ∧
      O1.out.ReturnValue = O2.out.ReturnValue ∧ O1.out.ReturnValue.res.StatusCode = 500 := by
  obtain ⟨O1, O2, h1, h2, h3, _, _, _, h7, _⟩ :=
    C8_generic_page (sampleWorld false) rfl [] [.WithDebug] "items" "orders" ["GET", "HEAD"]
      ["POST"]
      (sampleHandler [.header (fun h => h.Set "X-Id" "7")] (some (.plain "db password rejected")))
      (sampleHandler [.header (fun h => h.Set "X-Id" "7")]
        (some (.wrap "trace" (.http ⟨403, "forbidden"⟩))))
      (sampleRequest "GET") (sampleRequest "POST") liveTimeline ⟨none, some .Canceled⟩ _ _ _ _
      rfl rfl (by decide) (by decide) rfl rfl (by simp [sampleHandler, Op.writes])
      (by simp [sampleHandler, Op.writes]) rfl rfl rfl rfl ⟨by decide, by decide⟩
      ⟨by decide, by decide⟩
  exact ⟨O1, O2, h1, h2, (h7 rfl).1, h3.1⟩

/-- C8 as stated fails: in deployed mode, with the context live, two handlers write
nothing and return plain errors, so both reach the generic 500 branch; one of them
has set a header, which `renderError` keeps, so the two outbound header maps
differ. -/
theorem C8_counterexample :
    ∃ O1 O2, HTTPGet (sampleWorld false) (NewServer []) "items"
        (sampleHandler [] (some (.plain "first"))) (sampleRequest "GET") liveTimeline = some O1 ∧
      HTTPGet (sampleWorld false) (NewServer []) "items"
        (sampleHandler [.header (fun h => h.Set "X-Trace" "abc")] (some (.plain "second")))
        (sampleRequest "GET") liveTimeline = some O2 ∧
      (∀ op ∈ [Op.header (fun h => h.Set "X-Trace" "abc")], op.writes = false) ∧
      isClientError (.plain "first") = false ∧ isClientError (.plain "second") = false ∧
      O1.out.ReturnValue.res.Headers = [("Content-Type", ["text/html"])] ∧
      O2.out.ReturnValue.res.Headers = [("X-Trace", ["abc"]), ("Content-Type", ["text/html"])] ∧
      O1.out.ReturnValue.res.Headers ≠ O2.out.ReturnValue.res.Headers :=
  ⟨_, _, rfl, rfl, by simp [Op.writes], rfl, rfl, rfl, rfl, by decide⟩

end Azfunctions
